import Mathlib

/-!
Verification of the ralph-wiggum story-execution engine.

Python strings are modelled as `List Char` (`PyStr`).  Each Python function
relevant to the claims is translated into a computable Lean definition;
subprocess and filesystem effects are supplied through explicit oracle
parameters, so one execution of the Python code corresponds to one choice
of oracle values.
-/

set_option maxHeartbeats 1000000
set_option maxRecDepth 10000

abbrev PyStr := List Char

/-- Convert a Lean string literal to the `List Char` model. -/
def pstr (s : String) : PyStr := s.data

/-- The six ASCII whitespace characters recognised by Python's default
`str.strip` and by `\s` in the regexes used by the code. -/
def isPySpace (c : Char) : Bool :=
  c = ' ' || c = '\t' || c = '\n' || c = '\r' || c = Char.ofNat 11 || c = Char.ofNat 12

/-- Boolean list-prefix test (Python `str.startswith`, regex literal match). -/
def isPre : PyStr → PyStr → Bool
  | [], _ => true
  | _ :: _, [] => false
  | a :: as, b :: bs => a = b && isPre as bs

/-- Substring occurrence test (Python `in` on strings). -/
def containsSub (needle : PyStr) : PyStr → Bool
  | [] => needle.isEmpty
  | h :: t => isPre needle (h :: t) || containsSub needle t

/-- Characters before the first occurrence of `sep` (Python `s.split(sep)[0]`
when `sep` occurs; the whole string when it does not). -/
def takeUntilSub (sep : PyStr) : PyStr → PyStr
  | [] => []
  | h :: t => if isPre sep (h :: t) then [] else h :: takeUntilSub sep t

/-- Python `str.strip()` (both ends, ASCII whitespace). -/
def pyStrip (s : PyStr) : PyStr :=
  ((s.dropWhile isPySpace).reverse.dropWhile isPySpace).reverse

/-- Python `s.split("\n")`. -/
def splitLines : PyStr → List PyStr
  | [] => [[]]
  | c :: rest =>
    if c = '\n' then [] :: splitLines rest
    else
      match splitLines rest with
      | [] => [[c]]
      | l :: ls => (c :: l) :: ls

/-- Python `"\n".join(ls)`. -/
def joinLines : List PyStr → PyStr
  | [] => []
  | [l] => l
  | l :: l2 :: rest => l ++ '\n' :: joinLines (l2 :: rest)

/-- Python `l[s:]` slice semantics for an `int` start index. -/
def pySliceFrom {α : Type} (l : List α) (s : Int) : List α :=
  if s < 0 then l.drop ((l.length : Int) + s).toNat
  else l.drop s.toNat

/-! ### Lemmas about the string primitives -/

theorem isPre_iff (p s : PyStr) : isPre p s = true ↔ ∃ t, s = p ++ t := by
  induction p generalizing s with
  | nil => simp [isPre]
  | cons a as ih =>
    cases s with
    | nil =>
      simp only [isPre, List.cons_append]
      constructor
      · intro h
        exact absurd h (by simp)
      · rintro ⟨t, h⟩
        exact List.noConfusion h
    | cons b bs =>
      simp only [isPre, Bool.and_eq_true, decide_eq_true_eq, ih, List.cons_append]
      constructor
      · rintro ⟨rfl, t, rfl⟩
        exact ⟨t, rfl⟩
      · rintro ⟨t, h⟩
        injection h with h1 h2
        exact ⟨h1.symm, t, h2⟩

theorem isPre_append (p t : PyStr) : isPre p (p ++ t) = true :=
  (isPre_iff p (p ++ t)).2 ⟨t, rfl⟩

theorem containsSub_iff (n h : PyStr) :
    containsSub n h = true ↔ ∃ a b, h = a ++ n ++ b := by
  induction h with
  | nil =>
    simp only [containsSub, List.isEmpty_iff]
    constructor
    · rintro rfl
      exact ⟨[], [], rfl⟩
    · rintro ⟨a, b, hab⟩
      rcases List.append_eq_nil.mp hab.symm with ⟨h1, h2⟩
      exact (List.append_eq_nil.mp h1).2
  | cons c t ih =>
    simp only [containsSub, Bool.or_eq_true, isPre_iff, ih]
    constructor
    · rintro (⟨u, hu⟩ | ⟨a, b, hab⟩)
      · exact ⟨[], u, by simp [hu]⟩
      · exact ⟨c :: a, b, by simp [hab]⟩
    · rintro ⟨a, b, hab⟩
      cases a with
      | nil =>
        left
        exact ⟨b, by simpa using hab⟩
      | cons a0 as =>
        right
        rw [List.cons_append, List.cons_append] at hab
        injection hab with h1 h2
        exact ⟨as, b, by rw [h2]⟩

theorem isPre_take (p s : PyStr) : isPre p s = true ↔ s.take p.length = p := by
  rw [isPre_iff]
  constructor
  · rintro ⟨t, rfl⟩
    simp
  · intro h
    refine ⟨s.drop p.length, ?_⟩
    conv_lhs => rw [← List.take_append_drop p.length s]
    rw [h]

theorem isPre_transfer (n s u : PyStr) (m : Nat)
    (h : isPre n (s ++ u) = true) (hlen : n.length ≤ s.length + m) :
    isPre n (s ++ u.take m) = true := by
  rw [isPre_take] at h ⊢
  rw [List.take_append_eq_append_take] at h ⊢
  rw [List.take_take]
  have hm : n.length - s.length ≤ m := by omega
  rwa [Nat.min_eq_left hm]

theorem containsSub_of_isPre (n s : PyStr) (h : isPre n s = true) :
    containsSub n s = true := by
  rcases (isPre_iff n s).1 h with ⟨t, rfl⟩
  exact (containsSub_iff n (n ++ t)).2 ⟨[], t, by simp⟩

theorem containsSub_cons (n : PyStr) (c : Char) (t : PyStr)
    (h : containsSub n t = true) : containsSub n (c :: t) = true := by
  simp [containsSub, h]

theorem containsSub_mid (n a b : PyStr) : containsSub n (a ++ n ++ b) = true :=
  (containsSub_iff n (a ++ n ++ b)).2 ⟨a, b, rfl⟩

theorem not_containsSub_cons (n : PyStr) (c : Char) (t : PyStr)
    (h : ¬ containsSub n (c :: t) = true) :
    ¬ isPre n (c :: t) = true ∧ ¬ containsSub n t = true := by
  simp only [containsSub, Bool.or_eq_true] at h
  exact ⟨fun hp => h (Or.inl hp), fun hc => h (Or.inr hc)⟩

theorem containsSub_ne_nil (A : PyStr) (h : ¬ containsSub ([] : PyStr) A = true) : False := by
  cases A with
  | nil => exact h rfl
  | cons c t => exact h (by simp [containsSub, isPre])

/-- If `sep` starts `B` and no occurrence of `sep` begins inside `A`
(including occurrences that run over into the first `|sep| - 1`
characters of `B`), then the scan stops exactly at the `A`/`B` boundary. -/
theorem takeUntilSub_append (sep A B : PyStr)
    (hB : isPre sep B = true)
    (h : ¬ containsSub sep (A ++ B.take (sep.length - 1)) = true) :
    takeUntilSub sep (A ++ B) = A := by
  induction A with
  | nil =>
    cases hsep : sep with
    | nil =>
      exact absurd (by cases B <;> simp [containsSub, isPre, hsep]) (hsep ▸ h)
    | cons s0 st =>
      rcases (isPre_iff sep B).1 hB with ⟨t, rfl⟩
      subst hsep
      rw [List.nil_append, List.cons_append, takeUntilSub,
        if_pos (by rw [← List.cons_append]; exact isPre_append (s0 :: st) t)]
  | cons c A ih =>
    have hsepne : sep ≠ [] := by
      intro hs
      exact containsSub_ne_nil _ (hs ▸ h)
    have hlen : 1 ≤ sep.length := by
      cases sep with
      | nil => exact absurd rfl hsepne
      | cons _ _ => simp
    have hnp : ¬ isPre sep (c :: A ++ B) = true := by
      intro hp
      have := isPre_transfer sep (c :: A) B (sep.length - 1) hp (by simp; omega)
      exact (not_containsSub_cons sep c (A ++ B.take (sep.length - 1)) h).1
        (by simpa using this)
    rw [List.cons_append, takeUntilSub, if_neg (by simpa using hnp)]
    rw [ih (not_containsSub_cons sep c (A ++ B.take (sep.length - 1)) h).2]

theorem splitLines_no_newline (l : PyStr) (h : '\n' ∉ l) : splitLines l = [l] := by
  induction l with
  | nil => rfl
  | cons c t ih =>
    have hc : c ≠ '\n' := fun hc => h (hc ▸ List.mem_cons_self c t)
    have ht : '\n' ∉ t := fun hm => h (List.mem_cons_of_mem c hm)
    rw [splitLines, if_neg hc, ih ht]

theorem splitLines_append_newline (l s : PyStr) (h : '\n' ∉ l) :
    splitLines (l ++ '\n' :: s) = l :: splitLines s := by
  induction l with
  | nil => simp [splitLines]
  | cons c t ih =>
    have hc : c ≠ '\n' := fun hc => h (hc ▸ List.mem_cons_self c t)
    have ht : '\n' ∉ t := fun hm => h (List.mem_cons_of_mem c hm)
    rw [List.cons_append, splitLines, if_neg hc, ih ht]

theorem splitLines_ne_nil (s : PyStr) : splitLines s ≠ [] := by
  cases s with
  | nil => simp [splitLines]
  | cons c t =>
    rw [splitLines]
    split
    · simp
    · split
      · simp
      · simp

theorem splitLines_joinLines (ls : List PyStr) (hne : ls ≠ [])
    (h : ∀ l ∈ ls, '\n' ∉ l) : splitLines (joinLines ls) = ls := by
  induction ls with
  | nil => exact absurd rfl hne
  | cons l rest ih =>
    cases rest with
    | nil =>
      exact splitLines_no_newline l (h l (List.mem_cons_self l []))
    | cons l2 rest2 =>
      rw [joinLines, splitLines_append_newline l _ (h l (List.mem_cons_self _ _))]
      rw [ih (List.cons_ne_nil _ _) (fun x hx => h x (List.mem_cons_of_mem l hx))]

theorem joinLines_splitLines (s : PyStr) : joinLines (splitLines s) = s := by
  induction s with
  | nil => rfl
  | cons c t ih =>
    rw [splitLines]
    by_cases hc : c = '\n'
    · rw [if_pos hc, hc]
      have := splitLines_ne_nil t
      cases hs : splitLines t with
      | nil => exact absurd hs this
      | cons l ls =>
        rw [joinLines]
        rw [hs] at ih
        simp [ih]
    · rw [if_neg hc]
      cases hs : splitLines t with
      | nil => exact absurd hs (splitLines_ne_nil t)
      | cons l ls =>
        rw [hs] at ih
        cases ls with
        | nil =>
          rw [joinLines] at ih ⊢
          simp [ih]
        | cons l2 ls2 =>
          rw [joinLines] at ih ⊢
          simp [ih]

/-! ### Auditor (`micro_v/auditor.py`) -/

inductive AuditVerdict
  | PASS
  | RETRY
  | ESCALATE
deriving DecidableEq, Repr

structure AuditResult where
  verdict : AuditVerdict
  feedback : PyStr := []
  reason : PyStr := []
deriving DecidableEq, Repr

/-- A line matched by `re.search(r"^PASS\s*$", out, re.MULTILINE)`:
the regex matches iff some line of `out` starts with `PASS` followed only
by whitespace (`\s*` may run across following newlines, but every such match
ends where the PASS line ends, so line-local whitespace is equivalent). -/
def isPassLine (l : PyStr) : Bool :=
  isPre (pstr "PASS") l && (l.drop 4).all isPySpace

def hasPassLine (s : PyStr) : Bool :=
  (splitLines s).any isPassLine

/-- `re.search(r"^TAG\s*(.+)", out, re.MULTILINE | re.DOTALL)` on a stripped
string: the leftmost line-anchored occurrence of `TAG` whose remainder (the
rest of the entire string, `DOTALL`) is nonempty; returns that remainder.
`\s*(.+)` succeeds exactly when at least one character follows `TAG`, and
since `\s*` consumes only whitespace, `group(1).strip()` equals the strip of
the full remainder. -/
def findTag (tag : PyStr) : List PyStr → Option PyStr
  | [] => none
  | l :: rest =>
    if isPre tag l then
      let rem := joinLines (l.drop tag.length :: rest)
      if rem = [] then findTag tag rest else some rem
    else findTag tag rest

def fence : PyStr := pstr "```"

/-- `feedback = match.group(1).strip()`, then truncated at the first
code-fence marker and re-stripped when one is present. -/
def tagPayload (rem : PyStr) : PyStr :=
  let fb := pyStrip rem
  if containsSub fence fb then pyStrip (takeUntilSub fence fb) else fb

/-- `_parse_verdict` from `micro_v/auditor.py`. -/
def parse_verdict (output : PyStr) : AuditResult :=
  let out := pyStrip output
  if hasPassLine out then
    { verdict := .PASS }
  else
    match findTag (pstr "RETRY:") (splitLines out) with
    | some rem => { verdict := .RETRY, feedback := tagPayload rem }
    | none =>
      match findTag (pstr "ESCALATE:") (splitLines out) with
      | some rem => { verdict := .ESCALATE, reason := tagPayload rem }
      | none =>
        { verdict := .RETRY,
          feedback := pstr "Auditor output was unclear. Raw output: " ++ out.take 500 }

theorem findTag_none (tag : PyStr) (ls : List PyStr)
    (h : ∀ l ∈ ls, isPre tag l = false) : findTag tag ls = none := by
  induction ls with
  | nil => rfl
  | cons l rest ih =>
    rw [findTag]
    rw [h l (List.mem_cons_self _ _)]
    simp only [Bool.false_eq_true, if_false]
    exact ih (fun x hx => h x (List.mem_cons_of_mem l hx))

theorem findTag_first (tag : PyStr) (ls1 ls2 : List PyStr) (x0 : PyStr)
    (h1 : ∀ l ∈ ls1, isPre tag l = false)
    (hne : joinLines (x0 :: ls2) ≠ []) :
    findTag tag (ls1 ++ (tag ++ x0) :: ls2) = some (joinLines (x0 :: ls2)) := by
  induction ls1 with
  | nil =>
    rw [List.nil_append, findTag]
    rw [if_pos (isPre_append tag x0)]
    have hd : (tag ++ x0).drop tag.length = x0 := by
      rw [List.drop_append_eq_append_drop]
      simp
    rw [hd, if_neg hne]
  | cons l rest ih =>
    rw [List.cons_append, findTag]
    rw [h1 l (List.mem_cons_self _ _)]
    simp only [Bool.false_eq_true, if_false]
    exact ih (fun x hx => h1 x (List.mem_cons_of_mem l hx))

theorem splitLines_of_strip_join (L : List PyStr) (hLne : L ≠ [])
    (hnl : ∀ l ∈ L, '\n' ∉ l)
    (hst : pyStrip (joinLines L) = joinLines L) :
    splitLines (pyStrip (joinLines L)) = L := by
  rw [hst]
  exact splitLines_joinLines L hLne hnl

/-- C2 (PASS clause): a standalone `PASS` line forces the PASS verdict. -/
theorem parse_verdict_pass (out : PyStr)
    (h : pstr "PASS" ∈ splitLines (pyStrip out)) :
    parse_verdict out = { verdict := .PASS, feedback := [], reason := [] } := by
  have hp : hasPassLine (pyStrip out) = true := by
    rw [hasPassLine, List.any_eq_true]
    exact ⟨pstr "PASS", h, by decide⟩
  rw [parse_verdict]
  simp only [hp, if_true]

theorem parse_verdict_no_pass (out : PyStr)
    (h : hasPassLine (pyStrip out) = false) :
    parse_verdict out =
      (match findTag (pstr "RETRY:") (splitLines (pyStrip out)) with
       | some rem => { verdict := .RETRY, feedback := tagPayload rem }
       | none =>
         match findTag (pstr "ESCALATE:") (splitLines (pyStrip out)) with
         | some rem => { verdict := .ESCALATE, reason := tagPayload rem }
         | none =>
           { verdict := .RETRY,
             feedback := pstr "Auditor output was unclear. Raw output: "
               ++ (pyStrip out).take 500 }) := by
  rw [parse_verdict]
  simp only [h, Bool.false_eq_true, if_false]

theorem hasPassLine_eq_false (L : List PyStr) (hLne : L ≠ [])
    (hnl : ∀ l ∈ L, '\n' ∉ l)
    (hst : pyStrip (joinLines L) = joinLines L)
    (hnp : ∀ l ∈ L, isPassLine l = false) :
    hasPassLine (pyStrip (joinLines L)) = false := by
  rw [hasPassLine, splitLines_of_strip_join L hLne hnl hst]
  rw [List.any_eq_false]
  intro l hl
  rw [hnp l hl]
  simp

/-- C2: the verdict grammar of `_parse_verdict`.
1. An output containing a standalone line exactly `PASS` parses to PASS with
   empty feedback and reason.
2. Otherwise, when a line begins `RETRY:`, the verdict is RETRY and the
   feedback is the remainder of the output after that `RETRY:`; when the
   remainder has no surrounding whitespace and no code fence it is returned
   verbatim.
3. Otherwise, when a line begins `ESCALATE:`, the verdict is ESCALATE and the
   reason is the remainder after it, same convention.
4. Any other text gives RETRY (never PASS) with feedback holding an excerpt
   of the input of at most 500 characters.
5. The extracted payload is truncated at the first code-fence marker when
   one is present. -/
theorem c2_parse_verdict_spec :
    (∀ out : PyStr, pstr "PASS" ∈ splitLines (pyStrip out) →
      parse_verdict out = { verdict := .PASS, feedback := [], reason := [] })
    ∧
    (∀ (ls1 ls2 : List PyStr) (x0 : PyStr),
      (∀ l ∈ ls1 ++ (pstr "RETRY:" ++ x0) :: ls2, '\n' ∉ l) →
      pyStrip (joinLines (ls1 ++ (pstr "RETRY:" ++ x0) :: ls2)) =
        joinLines (ls1 ++ (pstr "RETRY:" ++ x0) :: ls2) →
      (∀ l ∈ ls1 ++ (pstr "RETRY:" ++ x0) :: ls2, isPassLine l = false) →
      (∀ l ∈ ls1, isPre (pstr "RETRY:") l = false) →
      joinLines (x0 :: ls2) ≠ [] →
      parse_verdict (joinLines (ls1 ++ (pstr "RETRY:" ++ x0) :: ls2)) =
        { verdict := .RETRY, feedback := tagPayload (joinLines (x0 :: ls2)),
          reason := [] }
      ∧ (pyStrip (joinLines (x0 :: ls2)) = joinLines (x0 :: ls2) →
         containsSub fence (joinLines (x0 :: ls2)) = false →
         tagPayload (joinLines (x0 :: ls2)) = joinLines (x0 :: ls2)))
    ∧
    (∀ (ls1 ls2 : List PyStr) (y0 : PyStr),
      (∀ l ∈ ls1 ++ (pstr "ESCALATE:" ++ y0) :: ls2, '\n' ∉ l) →
      pyStrip (joinLines (ls1 ++ (pstr "ESCALATE:" ++ y0) :: ls2)) =
        joinLines (ls1 ++ (pstr "ESCALATE:" ++ y0) :: ls2) →
      (∀ l ∈ ls1 ++ (pstr "ESCALATE:" ++ y0) :: ls2, isPassLine l = false) →
      (∀ l ∈ ls1 ++ (pstr "ESCALATE:" ++ y0) :: ls2,
        isPre (pstr "RETRY:") l = false) →
      (∀ l ∈ ls1, isPre (pstr "ESCALATE:") l = false) →
      joinLines (y0 :: ls2) ≠ [] →
      parse_verdict (joinLines (ls1 ++ (pstr "ESCALATE:" ++ y0) :: ls2)) =
        { verdict := .ESCALATE, feedback := [],
          reason := tagPayload (joinLines (y0 :: ls2)) })
    ∧
    (∀ out : PyStr,
      (∀ l ∈ splitLines (pyStrip out), isPassLine l = false ∧
        isPre (pstr "RETRY:") l = false ∧ isPre (pstr "ESCALATE:") l = false) →
      parse_verdict out =
        { verdict := .RETRY,
          feedback := pstr "Auditor output was unclear. Raw output: "
            ++ (pyStrip out).take 500,
          reason := [] }
      ∧ ((pyStrip out).take 500).length ≤ 500
      ∧ (parse_verdict out).verdict ≠ .PASS)
    ∧
    (∀ A B : PyStr,
      pyStrip (A ++ fence ++ B) = A ++ fence ++ B →
      containsSub fence (A ++ fence.take 2) = false →
      tagPayload (A ++ fence ++ B) = pyStrip A) := by
  refine ⟨?_, ?_, ?_, ?_, ?_⟩
  · exact parse_verdict_pass
  · intro ls1 ls2 x0 hnl hst hnp hr1 hne
    have hLne : ls1 ++ (pstr "RETRY:" ++ x0) :: ls2 ≠ [] := by
      simp
    have hfalse := hasPassLine_eq_false _ hLne hnl hst hnp
    constructor
    · rw [parse_verdict_no_pass _ hfalse,
        splitLines_of_strip_join _ hLne hnl hst,
        findTag_first _ ls1 ls2 x0 hr1 hne]
    · intro hstrip hfence
      rw [tagPayload, hstrip, hfence]
      simp
  · intro ls1 ls2 y0 hnl hst hnp hnr hes1 hne
    have hLne : ls1 ++ (pstr "ESCALATE:" ++ y0) :: ls2 ≠ [] := by
      simp
    have hfalse := hasPassLine_eq_false _ hLne hnl hst hnp
    rw [parse_verdict_no_pass _ hfalse,
      splitLines_of_strip_join _ hLne hnl hst,
      findTag_none _ _ hnr,
      findTag_first _ ls1 ls2 y0 hes1 hne]
  · intro out h
    have hfalse : hasPassLine (pyStrip out) = false := by
      rw [hasPassLine, List.any_eq_false]
      intro l hl
      rw [(h l hl).1]
      simp
    have hret := findTag_none (pstr "RETRY:") (splitLines (pyStrip out))
      (fun l hl => (h l hl).2.1)
    have hesc := findTag_none (pstr "ESCALATE:") (splitLines (pyStrip out))
      (fun l hl => (h l hl).2.2)
    have hres := parse_verdict_no_pass _ hfalse
    rw [hret, hesc] at hres
    refine ⟨hres, List.length_take_le _ _, ?_⟩
    rw [hres]
    simp
  · intro A B hstrip hfence
    rw [tagPayload, hstrip]
    have hctrue : containsSub fence (A ++ fence ++ B) = true :=
      containsSub_mid fence A B
    rw [hctrue]
    simp only [if_true]
    have htake : (fence ++ B).take (fence.length - 1) = fence.take 2 := by
      rw [List.take_append_eq_append_take]
      simp [fence, pstr]
    have := takeUntilSub_append fence A (fence ++ B) (isPre_append fence B)
      (by rw [htake, hfence]; simp)
    rw [List.append_assoc, this]

/-- Witness for C2: each clause of the grammar applied at a concrete output. -/
theorem c2_witness :
    parse_verdict (pstr "ok\nPASS") =
      { verdict := .PASS, feedback := [], reason := [] }
    ∧ parse_verdict (joinLines ([pstr "note"] ++ (pstr "RETRY:" ++ pstr "fix") :: [])) =
        { verdict := .RETRY, feedback := tagPayload (joinLines [pstr "fix"]),
          reason := [] }
    ∧ tagPayload (joinLines [pstr "fix"]) = joinLines [pstr "fix"]
    ∧ parse_verdict (joinLines ([] ++ (pstr "ESCALATE:" ++ pstr " stuck") :: [])) =
        { verdict := .ESCALATE, feedback := [],
          reason := tagPayload (joinLines [pstr " stuck"]) }
    ∧ parse_verdict (pstr "gibberish") =
        { verdict := .RETRY,
          feedback := pstr "Auditor output was unclear. Raw output: "
            ++ (pyStrip (pstr "gibberish")).take 500,
          reason := [] }
    ∧ tagPayload (pstr "keep " ++ fence ++ pstr " rest") = pyStrip (pstr "keep ") := by
  have h2 := c2_parse_verdict_spec.2.1 [pstr "note"] [] (pstr "fix")
    (by decide) (by decide) (by decide) (by decide) (by decide)
  refine ⟨c2_parse_verdict_spec.1 (pstr "ok\nPASS") (by decide),
    h2.1, h2.2 (by decide) (by decide),
    c2_parse_verdict_spec.2.2.1 [] [] (pstr " stuck")
      (by decide) (by decide) (by decide) (by decide) (by decide) (by decide),
    (c2_parse_verdict_spec.2.2.2.1 (pstr "gibberish") (by decide)).1,
    c2_parse_verdict_spec.2.2.2.2 (pstr "keep ") (pstr " rest")
      (by decide) (by decide)⟩

/-- C10: the PASS rule is checked before the RETRY and ESCALATE rules, so a
standalone `PASS` line wins over any `RETRY:`/`ESCALATE:` line regardless of
their relative order in the output. -/
theorem c10_pass_precedence (out : PyStr)
    (hp : pstr "PASS" ∈ splitLines (pyStrip out))
    (_hrl : ∃ l ∈ splitLines (pyStrip out),
      isPre (pstr "RETRY:") l = true ∨ isPre (pstr "ESCALATE:") l = true) :
    parse_verdict out = { verdict := .PASS, feedback := [], reason := [] } :=
  parse_verdict_pass out hp

/-- Witness for C10: the RETRY line comes first, the PASS line wins. -/
theorem c10_witness :
    parse_verdict (pstr "RETRY: x\nPASS") =
      { verdict := .PASS, feedback := [], reason := [] }
    ∧ parse_verdict (pstr "PASS\nESCALATE: y") =
      { verdict := .PASS, feedback := [], reason := [] } :=
  ⟨c10_pass_precedence (pstr "RETRY: x\nPASS") (by decide)
      ⟨pstr "RETRY: x", by decide⟩,
    c10_pass_precedence (pstr "PASS\nESCALATE: y") (by decide)
      ⟨pstr "ESCALATE: y", by decide⟩⟩

/-! ### Python `str.replace` over the list model -/

/-- Fuel-driven body of `listReplace`; the fuel is an upper bound on the
string length, so the definition is structurally recursive and reducible. -/
def listReplaceAux (pat repl : PyStr) : Nat → PyStr → PyStr
  | 0, s => s
  | _ + 1, [] => []
  | fuel + 1, c :: rest =>
    if pat ≠ [] ∧ isPre pat (c :: rest) = true then
      repl ++ listReplaceAux pat repl fuel ((c :: rest).drop pat.length)
    else c :: listReplaceAux pat repl fuel rest

/-- Python `str.replace(pat, repl)`: replace all non-overlapping occurrences
left to right.  (For the empty pattern, never used by the code, this
definition is the identity.) -/
def listReplace (pat repl s : PyStr) : PyStr :=
  listReplaceAux pat repl s.length s

theorem listReplaceAux_fuel (pat repl : PyStr) :
    ∀ (f1 : Nat) (f2 : Nat) (s : PyStr), s.length ≤ f1 → s.length ≤ f2 →
      listReplaceAux pat repl f1 s = listReplaceAux pat repl f2 s := by
  intro f1
  induction f1 with
  | zero =>
    intro f2 s h1 h2
    have hs : s = [] := List.eq_nil_of_length_eq_zero (Nat.le_zero.mp h1)
    subst hs
    cases f2 <;> rfl
  | succ f1 ih =>
    intro f2 s h1 h2
    cases s with
    | nil => cases f2 <;> rfl
    | cons c rest =>
      cases f2 with
      | zero => exact absurd h2 (by simp)
      | succ f2 =>
        rw [listReplaceAux, listReplaceAux]
        by_cases hcond : pat ≠ [] ∧ isPre pat (c :: rest) = true
        · rw [if_pos hcond, if_pos hcond]
          have hplen : 1 ≤ pat.length := by
            cases hp : pat with
            | nil => exact absurd hp hcond.1
            | cons _ _ => simp
          have hlen : ((c :: rest).drop pat.length).length ≤ f1 := by
            simp only [List.length_drop, List.length_cons]
            simp only [List.length_cons] at h1
            omega
          have hlen2 : ((c :: rest).drop pat.length).length ≤ f2 := by
            simp only [List.length_drop, List.length_cons]
            simp only [List.length_cons] at h2
            omega
          rw [ih f2 _ hlen hlen2]
        · rw [if_neg hcond, if_neg hcond]
          have hlen : rest.length ≤ f1 := by
            simp only [List.length_cons] at h1
            omega
          have hlen2 : rest.length ≤ f2 := by
            simp only [List.length_cons] at h2
            omega
          rw [ih f2 _ hlen hlen2]

theorem listReplace_cons (pat repl : PyStr) (c : Char) (rest : PyStr) :
    listReplace pat repl (c :: rest) =
      if pat ≠ [] ∧ isPre pat (c :: rest) = true then
        repl ++ listReplace pat repl ((c :: rest).drop pat.length)
      else c :: listReplace pat repl rest := by
  rw [listReplace, List.length_cons, listReplaceAux]
  by_cases hcond : pat ≠ [] ∧ isPre pat (c :: rest) = true
  · rw [if_pos hcond, if_pos hcond, listReplace]
    have hplen : 1 ≤ pat.length := by
      cases hp : pat with
      | nil => exact absurd hp hcond.1
      | cons _ _ => simp
    rw [listReplaceAux_fuel pat repl rest.length _ _
      (by simp only [List.length_drop, List.length_cons]; omega) (Nat.le_refl _)]
  · rw [if_neg hcond, if_neg hcond, listReplace]

/-- Replacement walks over a block that does not contain the pattern's first
character. -/
theorem listReplace_skip (p0 : Char) (pt repl A B : PyStr)
    (hA : ∀ c ∈ A, c ≠ p0) :
    listReplace (p0 :: pt) repl (A ++ B) = A ++ listReplace (p0 :: pt) repl B := by
  induction A with
  | nil => simp
  | cons c A ih =>
    have hc : c ≠ p0 := hA c (List.mem_cons_self _ _)
    rw [List.cons_append, listReplace_cons]
    have hpre : isPre (p0 :: pt) (c :: (A ++ B)) = false := by
      simp only [isPre, Bool.and_eq_true, decide_eq_true_eq]
      simp only [Bool.and_eq_false_iff]
      left
      simp
      intro hcp
      exact hc hcp.symm
    rw [if_neg (by simp [hpre])]
    rw [ih (fun x hx => hA x (List.mem_cons_of_mem c hx))]
    simp

/-- Replacement fires at an occurrence of the pattern. -/
theorem listReplace_hit (pat repl B : PyStr) (hpat : pat ≠ []) :
    listReplace pat repl (pat ++ B) = repl ++ listReplace pat repl B := by
  cases hp : pat with
  | nil => exact absurd hp hpat
  | cons p0 pt =>
    subst hp
    rw [List.cons_append, listReplace_cons]
    rw [if_pos ⟨by simp, by rw [← List.cons_append]; exact isPre_append _ B⟩]
    congr 1
    rw [← List.cons_append, List.drop_append_eq_append_drop]
    simp

/-- A block without the pattern's first character is left unchanged. -/
theorem listReplace_id (p0 : Char) (pt repl A : PyStr)
    (hA : ∀ c ∈ A, c ≠ p0) :
    listReplace (p0 :: pt) repl A = A := by
  have h := listReplace_skip p0 pt repl A [] hA
  rw [List.append_nil] at h
  rw [h]
  rw [show listReplace (p0 :: pt) repl [] = [] from rfl, List.append_nil]

/-- `{` , the first character of every placeholder pattern. -/
def lbrace : Char := Char.ofNat 123

/-- No `{` occurs in the string: placeholder replacement cannot touch it. -/
def braceFree (s : PyStr) : Bool := s.all (fun c => c ≠ lbrace)

theorem braceFree_elim (s : PyStr) (h : braceFree s = true) :
    ∀ c ∈ s, c ≠ lbrace := by
  intro c hc
  have := (List.all_eq_true.mp h) c hc
  simpa using this

theorem braceFree_append (a b : PyStr) (ha : braceFree a = true)
    (hb : braceFree b = true) : braceFree (a ++ b) = true := by
  rw [braceFree, List.all_append]
  rw [braceFree] at ha hb
  rw [ha, hb]
  rfl

/-! ### Executor (`micro_v/executor.py`) -/

inductive ExecutionResult
  | SUCCESS
  | FAILED
  | ESCALATED
deriving DecidableEq, Repr

structure UserStory where
  id : PyStr
  title : PyStr
  description : PyStr
  acceptanceCriteria : List PyStr
  priority : Int := 0
  passes : Bool := false
  notes : PyStr := []
  attempts : Int := 0
deriving DecidableEq, Repr

structure ExecutorConfig where
  max_retries : Int := 5
  validation_command : PyStr := []
  working_dir : PyStr := pstr "."
  coder_prompt_path : PyStr := pstr "micro_v/prompts/coder.md"
  learnings : PyStr := []
  files_whitelist : Option (List PyStr) := none
  claude_timeout : Int := 300
deriving DecidableEq, Repr

structure ExecutionOutput where
  result : ExecutionResult
  story_id : PyStr
  iterations : Int
  last_error : PyStr := []
  escalation_reason : PyStr := []
deriving DecidableEq, Repr

/-- The `(stdout, stderr, exit_code)` triple returned by `invoke_claude`. -/
structure InvokeResult where
  stdout : PyStr
  stderr : PyStr
  exit_code : Int
deriving DecidableEq, Repr

/-- Outcome of the `subprocess.run` call inside `_run_validation`:
normal completion, `TimeoutExpired`, or any other exception. -/
inductive SubprocessOutcome
  | completed (returncode : Int) (stdout : PyStr) (stderr : PyStr)
  | timedOut
  | failed (msg : PyStr)
deriving DecidableEq, Repr

/-- `_run_validation` from `micro_v/executor.py`; the subprocess outcome is
an oracle argument. -/
def run_validation (command : PyStr) (run : SubprocessOutcome) : Bool × PyStr :=
  if command = [] then (true, [])
  else
    match run with
    | .completed rc out err =>
      if rc = 0 then (true, out ++ err) else (false, out ++ err)
    | .timedOut => (false, pstr "Validation command timed out after 120s")
    | .failed msg => (false, pstr "Validation command failed: " ++ msg)

/-- The error-context block appended to the goal by `_format_prompt`
when `error_context` is non-empty (opening text up to the code fence). -/
def errHeader : PyStr :=
  pstr "\n\n## Previous Iteration Failed\n\nThe previous attempt failed validation with the following error:\n\n```\n"

/-- Closing part of the error-context block. -/
def errFooter : PyStr :=
  pstr "\n```\n\nPlease fix the issues and try again."

/-- `_format_prompt` from `micro_v/executor.py`. -/
def format_prompt (template : PyStr) (story : UserStory) (learnings : PyStr)
    (files_whitelist : Option (List PyStr)) (error_context : PyStr) : PyStr :=
  let goal0 := story.id ++ pstr ": " ++ story.title ++ pstr "\n\n" ++ story.description
  let goal := if error_context = [] then goal0
    else goal0 ++ (errHeader ++ error_context ++ errFooter)
  let criteria := joinLines (story.acceptanceCriteria.map (fun c => pstr "- " ++ c))
  let files := match files_whitelist with
    | none => pstr "(No whitelist specified - use judgment)"
    | some fs => joinLines (fs.map (fun f => pstr "- " ++ f))
  let learnings_text := if learnings = [] then pstr "(No previous learnings available)"
    else learnings
  listReplace (pstr "{{learnings}}") learnings_text
    (listReplace (pstr "{{files}}") files
      (listReplace (pstr "{{criteria}}") criteria
        (listReplace (pstr "{{goal}}") goal template)))

/-- Effect oracle for one execution of `execute_story`: the loaded template
(`none` models `FileNotFoundError`), and per-attempt results of the coder
invocation and of the validation subprocess.  Each attempt number occurs at
most once per execution, so indexing the oracles by the attempt models every
possible behaviour of the external processes. -/
structure ExecEnv where
  template : Option PyStr
  coder : Nat → InvokeResult
  validation : Nat → SubprocessOutcome

/-- `error_context = stderr if stderr else "Claude invocation failed"`. -/
def coderError (r : InvokeResult) : PyStr :=
  if r.stderr = [] then pstr "Claude invocation failed" else r.stderr

/-- The retry loop of `execute_story` (the `for attempt in
range(1, max_retries+1)` body).  Arguments: remaining attempts, current
attempt number, `error_context`, current value of the `iterations` variable.
Also returns the list of coder prompts built, in order. -/
def execLoop (story : UserStory) (config : ExecutorConfig) (env : ExecEnv)
    (template : PyStr) :
    Nat → Nat → PyStr → Nat → ExecutionOutput × List PyStr
  | 0, _, error_context, iterations =>
    ({ result := .FAILED, story_id := story.id, iterations := (iterations : Int),
       last_error := error_context }, [])
  | m + 1, attempt, error_context, _ =>
    let prompt := format_prompt template story config.learnings
      config.files_whitelist error_context
    let r := env.coder attempt
    if r.exit_code ≠ 0 then
      let next := execLoop story config env template m (attempt + 1)
        (coderError r) attempt
      (next.1, prompt :: next.2)
    else
      let v := run_validation config.validation_command (env.validation attempt)
      if v.1 then
        ({ result := .SUCCESS, story_id := story.id,
           iterations := (attempt : Int) }, [prompt])
      else
        let next := execLoop story config env template m (attempt + 1) v.2 attempt
        (next.1, prompt :: next.2)

/-- `execute_story` from `micro_v/executor.py`, together with the trace of
coder prompts built. -/
def execute_storyT (story : UserStory) (config : ExecutorConfig)
    (env : ExecEnv) : ExecutionOutput × List PyStr :=
  match env.template with
  | none =>
    ({ result := .FAILED, story_id := story.id, iterations := 0,
       last_error := pstr "Coder prompt not found: " ++ config.coder_prompt_path },
     [])
  | some template =>
    execLoop story config env template config.max_retries.toNat 1 [] 0

/-- `execute_story` from `micro_v/executor.py`. -/
def execute_story (story : UserStory) (config : ExecutorConfig)
    (env : ExecEnv) : ExecutionOutput :=
  (execute_storyT story config env).1

theorem execLoop_le (story : UserStory) (config : ExecutorConfig) (env : ExecEnv)
    (template : PyStr) :
    ∀ (m attempt iters : Nat) (err : PyStr) (bound : Nat),
      iters ≤ bound → attempt + m - 1 ≤ bound →
      ((execLoop story config env template m attempt err iters).1).iterations
        ≤ (bound : Int) := by
  intro m
  induction m with
  | zero =>
    intro attempt iters err bound h1 _
    rw [execLoop]
    show ((iters : Nat) : Int) ≤ (bound : Int)
    exact_mod_cast h1
  | succ m ih =>
    intro attempt iters err bound h1 h2
    rw [execLoop]
    by_cases hc : (env.coder attempt).exit_code ≠ 0
    · rw [if_pos hc]
      exact ih (attempt + 1) attempt _ bound (by omega) (by omega)
    · rw [if_neg hc]
      by_cases hv : (run_validation config.validation_command
          (env.validation attempt)).1
      · rw [if_pos hv]
        show ((attempt : Nat) : Int) ≤ (bound : Int)
        exact_mod_cast (by omega : attempt ≤ bound)
      · rw [if_neg hv]
        exact ih (attempt + 1) attempt _ bound (by omega) (by omega)

theorem execLoop_ge (story : UserStory) (config : ExecutorConfig) (env : ExecEnv)
    (template : PyStr) :
    ∀ (m attempt iters : Nat) (err : PyStr),
      (((if m = 0 then iters else attempt) : Nat) : Int)
        ≤ ((execLoop story config env template m attempt err iters).1).iterations := by
  intro m
  induction m with
  | zero =>
    intro attempt iters err
    rw [execLoop]
    simp
  | succ m ih =>
    intro attempt iters err
    rw [execLoop]
    simp only [Nat.succ_ne_zero, if_false]
    by_cases hc : (env.coder attempt).exit_code ≠ 0
    · rw [if_pos hc]
      refine le_trans ?_ (ih (attempt + 1) attempt _)
      by_cases hm : m = 0 <;> simp [hm]
    · rw [if_neg hc]
      by_cases hv : (run_validation config.validation_command
          (env.validation attempt)).1
      · rw [if_pos hv]
      · rw [if_neg hv]
        refine le_trans ?_ (ih (attempt + 1) attempt _)
        by_cases hm : m = 0 <;> simp [hm]

/-- C1 counterexample: with `max_retries = -1` (a legal `int` field value)
the loop body never runs and `execute_story` returns `iterations = 0`,
which exceeds `max_retries`. -/
theorem c1_counterexample :
    ¬ ((execute_story
        { id := pstr "US-1", title := pstr "T", description := pstr "D",
          acceptanceCriteria := [] }
        { max_retries := -1, validation_command := pstr "pytest" }
        { template := some (pstr "{{goal}}"),
          coder := fun _ => { stdout := [], stderr := [], exit_code := 0 },
          validation := fun _ => .completed 1 (pstr "fail") [] }).iterations
      ≤ ({ max_retries := -1, validation_command := pstr "pytest" }
          : ExecutorConfig).max_retries) := by
  decide

/-- C1 (amended): for every story, configuration with `max_retries ≥ 0`, and
behaviour of the coder/validation processes, the returned iteration count
never exceeds `max_retries`. -/
theorem c1_iterations_le_max_retries (story : UserStory)
    (config : ExecutorConfig) (env : ExecEnv)
    (h : 0 ≤ config.max_retries) :
    (execute_story story config env).iterations ≤ config.max_retries := by
  rw [execute_story, execute_storyT]
  cases htpl : env.template with
  | none =>
    show (0 : Int) ≤ config.max_retries
    exact h
  | some template =>
    have hb := execLoop_le story config env template config.max_retries.toNat
      1 0 [] config.max_retries.toNat (Nat.zero_le _) (by omega)
    rwa [Int.toNat_of_nonneg h] at hb

/-- Witness for C1. -/
theorem c1_witness :
    (0 : Int) ≤ (({ max_retries := 2, validation_command := pstr "pytest" }
        : ExecutorConfig)).max_retries
    ∧ (execute_story
        { id := pstr "US-1", title := pstr "T", description := pstr "D",
          acceptanceCriteria := [] }
        { max_retries := 2, validation_command := pstr "pytest" }
        { template := some (pstr "{{goal}}"),
          coder := fun _ => { stdout := [], stderr := [], exit_code := 0 },
          validation := fun _ => .completed 1 (pstr "fail") [] }).iterations
      ≤ ({ max_retries := 2, validation_command := pstr "pytest" }
          : ExecutorConfig).max_retries :=
  ⟨by decide,
    c1_iterations_le_max_retries _ _ _ (by decide)⟩

/-- C5 counterexample: when the coder prompt template does not load,
`execute_story` produces an `ExecutionOutput` with `iterations = 0`,
violating `1 ≤ iterations`. -/
theorem c5_counterexample :
    ¬ ((1 : Int) ≤ (execute_story
        { id := pstr "US-1", title := pstr "T", description := pstr "D",
          acceptanceCriteria := [] }
        { max_retries := 5, validation_command := pstr "pytest" }
        { template := none,
          coder := fun _ => { stdout := [], stderr := [], exit_code := 0 },
          validation := fun _ => .completed 1 (pstr "fail") [] }).iterations) := by
  decide

/-- C5 (amended): when the coder prompt template loads and
`max_retries ≥ 1`, the single `ExecutionOutput` produced satisfies
`1 ≤ iterations ≤ max_retries`. -/
theorem c5_iterations_bounds (story : UserStory) (config : ExecutorConfig)
    (env : ExecEnv) (template : PyStr)
    (htpl : env.template = some template)
    (hmr : 1 ≤ config.max_retries) :
    1 ≤ (execute_story story config env).iterations ∧
      (execute_story story config env).iterations ≤ config.max_retries := by
  constructor
  · rw [execute_story, execute_storyT, htpl]
    have hm : config.max_retries.toNat ≠ 0 := by
      omega
    have hg := execLoop_ge story config env template config.max_retries.toNat 1 0 []
    rwa [if_neg hm] at hg
  · exact c1_iterations_le_max_retries story config env (by omega)

theorem execLoop_allfail (story : UserStory) (config : ExecutorConfig)
    (env : ExecEnv) (template : PyStr)
    (rc : Nat → Int) (vo ve : Nat → PyStr)
    (hcmd : config.validation_command ≠ [])
    (hcoder : ∀ a, (env.coder a).exit_code = 0)
    (hval : ∀ a, env.validation a = .completed (rc a) (vo a) (ve a))
    (hrc : ∀ a, rc a ≠ 0) :
    ∀ (m attempt iters : Nat) (err : PyStr), 1 ≤ m →
      (execLoop story config env template m attempt err iters).1 =
        { result := .FAILED, story_id := story.id,
          iterations := ((attempt + m - 1 : Nat) : Int),
          last_error := vo (attempt + m - 1) ++ ve (attempt + m - 1) } := by
  intro m
  induction m with
  | zero =>
    intro _ _ _ hm
    omega
  | succ m ih =>
    intro attempt iters err _
    have hv : run_validation config.validation_command (env.validation attempt) =
        (false, vo attempt ++ ve attempt) := by
      rw [hval, run_validation, if_neg hcmd]
      simp only [if_neg (hrc attempt)]
    rw [execLoop]
    rw [if_neg (by rw [hcoder attempt]; simp)]
    rw [hv]
    simp only [if_neg (Bool.false_ne_true)]
    cases m with
    | zero =>
      rw [execLoop]
      simp
    | succ m2 =>
      rw [ih (attempt + 1) attempt (vo attempt ++ ve attempt) (by omega)]
      have harith : attempt + 1 + (m2 + 1) - 1 = attempt + (m2 + 1 + 1) - 1 := by
        omega
      rw [harith]

/-- C3: if the template loads, the coder always exits 0, and the validation
command always completes with a non-zero exit code, then `execute_story`
returns FAILED with `iterations = max_retries` and `last_error` equal to the
final iteration's validation output (concatenated stdout+stderr). -/
theorem c3_always_failing_validator (story : UserStory)
    (config : ExecutorConfig) (env : ExecEnv) (template : PyStr)
    (rc : Nat → Int) (vo ve : Nat → PyStr)
    (htpl : env.template = some template)
    (hcmd : config.validation_command ≠ [])
    (hcoder : ∀ a, (env.coder a).exit_code = 0)
    (hval : ∀ a, env.validation a = .completed (rc a) (vo a) (ve a))
    (hrc : ∀ a, rc a ≠ 0)
    (hmr : 1 ≤ config.max_retries) :
    execute_story story config env =
      { result := .FAILED, story_id := story.id,
        iterations := config.max_retries,
        last_error := vo config.max_retries.toNat ++ ve config.max_retries.toNat } := by
  rw [execute_story, execute_storyT, htpl]
  rw [execLoop_allfail story config env template rc vo ve hcmd hcoder hval hrc
    config.max_retries.toNat 1 0 [] (by omega)]
  have h1 : 1 + config.max_retries.toNat - 1 = config.max_retries.toNat := by
    omega
  rw [h1, Int.toNat_of_nonneg (by omega)]

/-- Witness for C3: two attempts, validator fails both times, the loop
returns FAILED after `max_retries = 2` iterations with the second
validation output as `last_error`. -/
theorem c3_witness :
    execute_story
      { id := pstr "US-1", title := pstr "T", description := pstr "D",
        acceptanceCriteria := [pstr "c1"] }
      { max_retries := 2, validation_command := pstr "pytest" }
      { template := some (pstr "{{goal}}"),
        coder := fun _ => { stdout := [], stderr := [], exit_code := 0 },
        validation := fun a =>
          .completed 1 (pstr "failure #" ++ Nat.toDigits 10 a) (pstr "!") } =
      { result := .FAILED, story_id := pstr "US-1", iterations := 2,
        last_error := (fun a => pstr "failure #" ++ Nat.toDigits 10 a)
          ((2 : Int).toNat) ++ (fun _ => pstr "!") ((2 : Int).toNat) } := by
  have h := c3_always_failing_validator
    { id := pstr "US-1", title := pstr "T", description := pstr "D",
      acceptanceCriteria := [pstr "c1"] }
    { max_retries := 2, validation_command := pstr "pytest" }
    { template := some (pstr "{{goal}}"),
      coder := fun _ => { stdout := [], stderr := [], exit_code := 0 },
      validation := fun a =>
        .completed 1 (pstr "failure #" ++ Nat.toDigits 10 a) (pstr "!") }
    (pstr "{{goal}}")
    (fun _ => 1) (fun a => pstr "failure #" ++ Nat.toDigits 10 a) (fun _ => pstr "!")
    rfl (by decide) (fun _ => rfl) (fun _ => rfl) (fun _ => one_ne_zero) (by decide)
  exact h

/-- The `error_context` recorded by iteration `a` when it fails: the coder's
stderr (or fixed fallback) on a non-zero coder exit, otherwise the
validation output. -/
def nextErr (config : ExecutorConfig) (env : ExecEnv) (a : Nat) : PyStr :=
  if (env.coder a).exit_code ≠ 0 then coderError (env.coder a)
  else (run_validation config.validation_command (env.validation a)).2

theorem execLoop_trace_get (story : UserStory) (config : ExecutorConfig)
    (env : ExecEnv) (template : PyStr) :
    ∀ (m attempt iters k : Nat) (err p : PyStr),
      ((execLoop story config env template m attempt err iters).2).get? k = some p →
      p = format_prompt template story config.learnings config.files_whitelist
        (if k = 0 then err else nextErr config env (attempt + k - 1)) := by
  intro m
  induction m with
  | zero =>
    intro attempt iters k err p h
    rw [execLoop] at h
    simp at h
  | succ m ih =>
    intro attempt iters k err p h
    rw [execLoop] at h
    by_cases hc : (env.coder attempt).exit_code ≠ 0
    · rw [if_pos hc] at h
      cases k with
      | zero =>
        simp only [List.get?_cons_zero, Option.some_inj] at h
        rw [← h]
        simp
      | succ k =>
        simp only [List.get?_cons_succ] at h
        have hrec := ih (attempt + 1) attempt k (coderError (env.coder attempt)) p h
        have harg : (if k = 0 then coderError (env.coder attempt)
            else nextErr config env (attempt + 1 + k - 1)) =
            (if k + 1 = 0 then err
             else nextErr config env (attempt + (k + 1) - 1)) := by
          rw [if_neg (Nat.succ_ne_zero k)]
          by_cases hk : k = 0
          · subst hk
            rw [if_pos rfl]
            have ha : attempt + (0 + 1) - 1 = attempt := by omega
            rw [ha, nextErr, if_pos hc]
          · rw [if_neg hk]
            congr 1
            omega
        rw [hrec, harg]
    · rw [if_neg hc] at h
      by_cases hv : (run_validation config.validation_command
          (env.validation attempt)).1
      · rw [if_pos hv] at h
        cases k with
        | zero =>
          simp only [List.get?_cons_zero, Option.some_inj] at h
          rw [← h]
          simp
        | succ k =>
          simp at h
      · rw [if_neg hv] at h
        cases k with
        | zero =>
          simp only [List.get?_cons_zero, Option.some_inj] at h
          rw [← h]
          simp
        | succ k =>
          simp only [List.get?_cons_succ] at h
          have hrec := ih (attempt + 1) attempt k
            (run_validation config.validation_command (env.validation attempt)).2 p h
          have harg : (if k = 0 then
              (run_validation config.validation_command (env.validation attempt)).2
            else nextErr config env (attempt + 1 + k - 1)) =
            (if k + 1 = 0 then err
             else nextErr config env (attempt + (k + 1) - 1)) := by
            rw [if_neg (Nat.succ_ne_zero k)]
            by_cases hk : k = 0
            · subst hk
              rw [if_pos rfl]
              have ha : attempt + (0 + 1) - 1 = attempt := by omega
              rw [ha, nextErr, if_neg hc]
            · rw [if_neg hk]
              congr 1
              omega
          rw [hrec, harg]

theorem replace3_skip (x2 x3 x4 P R : PyStr) (hP : braceFree P = true) :
    listReplace (pstr "{{learnings}}") x4 (listReplace (pstr "{{files}}") x3
      (listReplace (pstr "{{criteria}}") x2 (P ++ R)))
    = P ++ listReplace (pstr "{{learnings}}") x4 (listReplace (pstr "{{files}}") x3
        (listReplace (pstr "{{criteria}}") x2 R)) := by
  have d2 : pstr "{{criteria}}" = lbrace :: pstr "\x7bcriteria\x7d\x7d" := by decide
  have d3 : pstr "{{files}}" = lbrace :: pstr "\x7bfiles\x7d\x7d" := by decide
  have d4 : pstr "{{learnings}}" = lbrace :: pstr "\x7blearnings\x7d\x7d" := by decide
  rw [d2, listReplace_skip _ _ _ _ _ (braceFree_elim P hP),
    d3, listReplace_skip _ _ _ _ _ (braceFree_elim P hP),
    d4, listReplace_skip _ _ _ _ _ (braceFree_elim P hP)]

/-- With a template of the shape `t1 ++ "{{goal}}" ++ t2` whose prefix and
story fields contain no `{`, the prompt built by `_format_prompt` for a
non-empty `error_context` contains the full error-context section — header,
error text verbatim, and footer. -/
theorem format_prompt_contains (story : UserStory) (learnings : PyStr)
    (wl : Option (List PyStr)) (e t1 t2 : PyStr)
    (ht1 : braceFree t1 = true)
    (hid : braceFree story.id = true) (htit : braceFree story.title = true)
    (hdesc : braceFree story.description = true)
    (he : braceFree e = true) (hene : e ≠ []) :
    containsSub (errHeader ++ e ++ errFooter)
      (format_prompt (t1 ++ pstr "{{goal}}" ++ t2) story learnings wl e) = true := by
  simp only [format_prompt]
  rw [if_neg hene]
  have d1 : pstr "{{goal}}" = lbrace :: pstr "\x7bgoal\x7d\x7d" := by decide
  have hgoal0 : braceFree (story.id ++ pstr ": " ++ story.title ++ pstr "\n\n"
      ++ story.description) = true := by
    refine braceFree_append _ _ (braceFree_append _ _ (braceFree_append _ _
      (braceFree_append _ _ hid (by decide)) htit) (by decide)) hdesc
  have hgoal : braceFree ((story.id ++ pstr ": " ++ story.title ++ pstr "\n\n"
      ++ story.description) ++ (errHeader ++ e ++ errFooter)) = true := by
    refine braceFree_append _ _ hgoal0 ?_
    refine braceFree_append _ _ (braceFree_append _ _ (by decide) he) (by decide)
  rw [List.append_assoc t1 (pstr "{{goal}}") t2]
  rw [d1, listReplace_skip _ _ _ _ _ (braceFree_elim t1 ht1), ← d1]
  rw [listReplace_hit _ _ _ (by decide)]
  rw [← List.append_assoc t1]
  rw [replace3_skip _ _ _ _ _ (braceFree_append _ _ ht1 hgoal)]
  rw [containsSub_iff]
  refine ⟨t1 ++ (story.id ++ pstr ": " ++ story.title ++ pstr "\n\n"
      ++ story.description),
    listReplace (pstr "{{learnings}}")
      (if learnings = [] then pstr "(No previous learnings available)" else learnings)
      (listReplace (pstr "{{files}}")
        (match wl with
          | none => pstr "(No whitelist specified - use judgment)"
          | some fs => joinLines (List.map (fun f => pstr "- " ++ f) fs))
        (listReplace (pstr "{{criteria}}")
          (joinLines (List.map (fun c => pstr "- " ++ c) story.acceptanceCriteria))
          (listReplace (pstr "{{goal}}")
            (story.id ++ pstr ": " ++ story.title ++ pstr "\n\n" ++ story.description
              ++ (errHeader ++ e ++ errFooter))
            t2))), ?_⟩
  simp [List.append_assoc]

/-- C4: whenever iteration `i` of `execute_story` fails (coder non-zero exit
with its stderr — or the fixed fallback when stderr is empty — as error, or
validation failure with its output as error), the full error text recorded by
iteration `i` appears verbatim under the error-context section inside the
coder prompt built for iteration `i + 1` (trace index `i`; index 0 is the
iteration-1 prompt).  The template is assumed to contain the `{{goal}}`
placeholder, and the error text and surrounding texts to be `{`-free, so that
the later placeholder substitutions cannot rewrite inside the section. -/
theorem c4_error_context_in_next_prompt (story : UserStory)
    (config : ExecutorConfig) (env : ExecEnv) (t1 t2 : PyStr) (i : Nat) (p : PyStr)
    (htpl : env.template = some (t1 ++ pstr "{{goal}}" ++ t2))
    (ht1 : braceFree t1 = true)
    (hid : braceFree story.id = true) (htit : braceFree story.title = true)
    (hdesc : braceFree story.description = true)
    (hi : 1 ≤ i)
    (hp : ((execute_storyT story config env).2).get? i = some p)
    (herr : braceFree (nextErr config env i) = true)
    (hene : nextErr config env i ≠ []) :
    containsSub (errHeader ++ nextErr config env i ++ errFooter) p = true := by
  rw [execute_storyT, htpl] at hp
  have h := execLoop_trace_get story config env (t1 ++ pstr "{{goal}}" ++ t2)
    config.max_retries.toNat 1 0 i [] p hp
  rw [if_neg (by omega : ¬ i = 0)] at h
  have ha : 1 + i - 1 = i := by omega
  rw [ha] at h
  rw [h]
  exact format_prompt_contains story config.learnings config.files_whitelist
    (nextErr config env i) t1 t2 ht1 hid htit hdesc herr hene

/-- Witness for C4: validator fails on iteration 1 with output `boom!`;
the iteration-2 prompt contains the error-context section with `boom!`. -/
theorem c4_witness :
    containsSub
      (errHeader
        ++ nextErr { max_retries := 2, validation_command := pstr "pytest" }
          { template := some (pstr "Do: {{goal}} End"),
            coder := fun _ => { stdout := [], stderr := [], exit_code := 0 },
            validation := fun _ => .completed 1 (pstr "boom") (pstr "!") } 1
        ++ errFooter)
      (((execute_storyT
        { id := pstr "US-1", title := pstr "T", description := pstr "D",
          acceptanceCriteria := [] }
        { max_retries := 2, validation_command := pstr "pytest" }
        { template := some (pstr "Do: {{goal}} End"),
          coder := fun _ => { stdout := [], stderr := [], exit_code := 0 },
          validation := fun _ => .completed 1 (pstr "boom") (pstr "!") }).2).getD 1 [])
      = true :=
  c4_error_context_in_next_prompt
    { id := pstr "US-1", title := pstr "T", description := pstr "D",
      acceptanceCriteria := [] }
    { max_retries := 2, validation_command := pstr "pytest" }
    { template := some (pstr "Do: {{goal}} End"),
      coder := fun _ => { stdout := [], stderr := [], exit_code := 0 },
      validation := fun _ => .completed 1 (pstr "boom") (pstr "!") }
    (pstr "Do: ") (pstr " End") 1 _
    (by decide) (by decide) (by decide) (by decide) (by decide)
    (by decide) (by decide) (by decide) (by decide)

/-- `_format_auditor_prompt` from `micro_v/auditor.py`. -/
def format_auditor_prompt (template spec diff : PyStr) : PyStr :=
  listReplace (pstr "{{diff}}") diff (listReplace (pstr "{{spec}}") spec template)

/-- `audit_implementation` from `micro_v/auditor.py` (the part after the
template loads; a missing template raises `AuditorError` before any
invocation).  The claude invocation is an oracle from the built prompt to an
`InvokeResult`. -/
def audit_implementation (spec diff template : PyStr)
    (invoke : PyStr → InvokeResult) : AuditResult :=
  let prompt := format_auditor_prompt template spec diff
  let r := invoke prompt
  if r.exit_code ≠ 0 then
    { verdict := .RETRY,
      feedback := pstr "Auditor invocation failed: "
        ++ (if r.stderr = [] then pstr "Claude invocation failed" else r.stderr) }
  else parse_verdict r.stdout

/-- C6: whenever the audit process invocation exits non-zero,
`audit_implementation` returns RETRY whose feedback contains the invocation
error text, and never ESCALATE. -/
theorem c6_invocation_failure_retry (spec diff template : PyStr)
    (invoke : PyStr → InvokeResult)
    (h : (invoke (format_auditor_prompt template spec diff)).exit_code ≠ 0) :
    (audit_implementation spec diff template invoke).verdict = .RETRY
    ∧ containsSub
        (if (invoke (format_auditor_prompt template spec diff)).stderr = []
          then pstr "Claude invocation failed"
          else (invoke (format_auditor_prompt template spec diff)).stderr)
        (audit_implementation spec diff template invoke).feedback = true
    ∧ (audit_implementation spec diff template invoke).verdict ≠ .ESCALATE := by
  rw [audit_implementation]
  simp only [if_pos h]
  refine ⟨trivial, ?_, by simp⟩
  have := containsSub_mid
    (if (invoke (format_auditor_prompt template spec diff)).stderr = []
      then pstr "Claude invocation failed"
      else (invoke (format_auditor_prompt template spec diff)).stderr)
    (pstr "Auditor invocation failed: ") []
  simpa using this

/-- Witness for C6: the invocation exits 1 with stderr `spawn error`;
the result is RETRY and the feedback contains the error text. -/
theorem c6_witness :
    ((fun _ : PyStr =>
        ({ stdout := [], stderr := pstr "spawn error", exit_code := 1 } : InvokeResult))
      (format_auditor_prompt (pstr "T") (pstr "S") (pstr "D"))).exit_code ≠ 0
    ∧ (audit_implementation (pstr "S") (pstr "D") (pstr "T")
        (fun _ => { stdout := [], stderr := pstr "spawn error", exit_code := 1 })).verdict
        = .RETRY
    ∧ containsSub (pstr "spawn error")
        (audit_implementation (pstr "S") (pstr "D") (pstr "T")
          (fun _ =>
            { stdout := [], stderr := pstr "spawn error", exit_code := 1 })).feedback
        = true := by
  have h := c6_invocation_failure_retry (pstr "S") (pstr "D") (pstr "T")
    (fun _ => { stdout := [], stderr := pstr "spawn error", exit_code := 1 })
    (by decide)
  exact ⟨by decide, h.1, by decide⟩

/-- Witness for C5. -/
theorem c5_witness :
    1 ≤ (execute_story
      { id := pstr "US-1", title := pstr "T", description := pstr "D",
        acceptanceCriteria := [] }
      { max_retries := 2, validation_command := pstr "pytest" }
      { template := some (pstr "{{goal}}"),
        coder := fun _ => { stdout := [], stderr := [], exit_code := 0 },
        validation := fun _ => .completed 1 (pstr "fail") [] }).iterations
    ∧ (execute_story
      { id := pstr "US-1", title := pstr "T", description := pstr "D",
        acceptanceCriteria := [] }
      { max_retries := 2, validation_command := pstr "pytest" }
      { template := some (pstr "{{goal}}"),
        coder := fun _ => { stdout := [], stderr := [], exit_code := 0 },
        validation := fun _ => .completed 1 (pstr "fail") [] }).iterations
      ≤ ({ max_retries := 2, validation_command := pstr "pytest" }
          : ExecutorConfig).max_retries :=
  c5_iterations_bounds
    { id := pstr "US-1", title := pstr "T", description := pstr "D",
      acceptanceCriteria := [] }
    { max_retries := 2, validation_command := pstr "pytest" }
    { template := some (pstr "{{goal}}"),
      coder := fun _ => { stdout := [], stderr := [], exit_code := 0 },
      validation := fun _ => .completed 1 (pstr "fail") [] }
    (pstr "{{goal}}") rfl (by decide)

/-! ### Git commit (`shared/git.py`) -/

/-- `_GitResult`: returncode, stdout, stderr of one git command. -/
structure GitResult where
  returncode : Int
  stdout : PyStr
  stderr : PyStr
deriving DecidableEq, Repr

structure CommitResult where
  success : Bool
  sha : PyStr := []
  error : PyStr := []
deriving DecidableEq, Repr

/-- Oracle for the git commands and filesystem checks issued by
`commit_story`: per-path existence, `git diff --name-only HEAD -- path`,
`git ls-files --others --exclude-standard -- path`, `git add path`,
`git commit -m msg`, `git rev-parse HEAD`. -/
structure GitEnv where
  exists_on_disk : PyStr → Bool
  diff_head : PyStr → GitResult
  ls_files : PyStr → GitResult
  add : PyStr → GitResult
  commit : PyStr → GitResult
  rev_parse : GitResult

/-- Python `str.lower()` (ASCII). -/
def pyLower (s : PyStr) : PyStr := s.map Char.toLower

/-- The per-file staging test of `commit_story`: the file exists on disk and
either has a diff against HEAD or is untracked (both detected by a zero
returncode with non-blank stdout). -/
def fileQualifies (env : GitEnv) (f : PyStr) : Bool :=
  env.exists_on_disk f &&
    ((decide ((env.diff_head f).returncode = 0)
        && !(pyStrip (env.diff_head f).stdout).isEmpty)
      || (decide ((env.ls_files f).returncode = 0)
        && !(pyStrip (env.ls_files f).stdout).isEmpty))

/-- The staging loop: `git add` each staged file in order, stopping at the
first failure. -/
def stageAll (env : GitEnv) : List PyStr → Option (PyStr × GitResult)
  | [] => none
  | f :: rest =>
    if (env.add f).returncode ≠ 0 then some (f, env.add f) else stageAll env rest

/-- `commit_story` from `shared/git.py`, together with the list of files it
stages and the commit message it passes to `git commit` (when reached). -/
def commit_storyT (story_id title : PyStr) (files : List PyStr)
    (env : GitEnv) : CommitResult × List PyStr × Option PyStr :=
  if files = [] then
    ({ success := false, error := pstr "No files provided to commit" }, [], none)
  else
    let staged_files := files.filter (fileQualifies env)
    if staged_files = [] then
      ({ success := false,
         error := pstr "No whitelisted files have changes to commit" },
       staged_files, none)
    else
      match stageAll env staged_files with
      | some fr =>
        ({ success := false,
           error := pstr "Failed to stage " ++ fr.1 ++ pstr ": " ++ fr.2.stderr },
         staged_files, none)
      | none =>
        let commit_message := pstr "feat: " ++ story_id ++ pstr " - " ++ title
        let r := env.commit commit_message
        if r.returncode ≠ 0 then
          if containsSub (pstr "nothing to commit") (pyLower r.stdout)
              || containsSub (pstr "nothing to commit") (pyLower r.stderr) then
            ({ success := false,
               error := pstr "Nothing to commit - files may already be committed" },
             staged_files, some commit_message)
          else
            ({ success := false,
               error := pstr "Commit failed: "
                 ++ (if r.stderr = [] then r.stdout else r.stderr) },
             staged_files, some commit_message)
        else
          if env.rev_parse.returncode ≠ 0 then
            ({ success := true, sha := pstr "unknown" },
             staged_files, some commit_message)
          else
            ({ success := true, sha := pyStrip env.rev_parse.stdout },
             staged_files, some commit_message)

/-- `commit_story` from `shared/git.py`. -/
def commit_story (story_id title : PyStr) (files : List PyStr)
    (env : GitEnv) : CommitResult :=
  (commit_storyT story_id title files env).1

theorem stageAll_none (env : GitEnv) (l : List PyStr)
    (h : ∀ f ∈ l, (env.add f).returncode = 0) : stageAll env l = none := by
  induction l with
  | nil => rfl
  | cons f rest ih =>
    rw [stageAll, if_neg (by rw [h f (List.mem_cons_self _ _)]; simp)]
    exact ih (fun x hx => h x (List.mem_cons_of_mem f hx))

theorem commit_storyT_trace (story_id title : PyStr) (files : List PyStr)
    (env : GitEnv) :
    (commit_storyT story_id title files env).2.1 =
      if files = [] then [] else files.filter (fileQualifies env) := by
  simp only [commit_storyT]
  split
  · rfl
  · split
    · rfl
    · split
      · rfl
      · split
        · split <;> rfl
        · split <;> rfl

/-- C8: the staging/commit contract of `commit_story`.
1. The staged set is exactly the whitelisted paths that exist on disk and
   either have a diff against HEAD or are untracked (paths absent from disk
   or unchanged are skipped).
2. With a non-empty whitelist in which no file qualifies, the result is a
   failure carrying the no-whitelisted-files-have-changes error.
3. The commit message passed to `git commit` is exactly
   `feat: {story_id} - {title}`.
4. When the commit succeeds but the SHA lookup fails, the result is success
   with the sentinel sha `unknown`. -/
theorem c8_commit_story_spec :
    (∀ (story_id title : PyStr) (files : List PyStr) (env : GitEnv) (f : PyStr),
      f ∈ (commit_storyT story_id title files env).2.1 ↔
        (f ∈ files ∧ env.exists_on_disk f = true ∧
          (((env.diff_head f).returncode = 0 ∧ pyStrip (env.diff_head f).stdout ≠ [])
            ∨ ((env.ls_files f).returncode = 0 ∧ pyStrip (env.ls_files f).stdout ≠ []))))
    ∧
    (∀ (story_id title : PyStr) (files : List PyStr) (env : GitEnv),
      files ≠ [] → files.filter (fileQualifies env) = [] →
      commit_story story_id title files env =
        { success := false, sha := [],
          error := pstr "No whitelisted files have changes to commit" })
    ∧
    (∀ (story_id title : PyStr) (files : List PyStr) (env : GitEnv),
      files ≠ [] → files.filter (fileQualifies env) ≠ [] →
      (∀ f ∈ files.filter (fileQualifies env), (env.add f).returncode = 0) →
      (commit_storyT story_id title files env).2.2 =
        some (pstr "feat: " ++ story_id ++ pstr " - " ++ title))
    ∧
    (∀ (story_id title : PyStr) (files : List PyStr) (env : GitEnv),
      files ≠ [] → files.filter (fileQualifies env) ≠ [] →
      (∀ f ∈ files.filter (fileQualifies env), (env.add f).returncode = 0) →
      (env.commit (pstr "feat: " ++ story_id ++ pstr " - " ++ title)).returncode = 0 →
      env.rev_parse.returncode ≠ 0 →
      commit_story story_id title files env =
        { success := true, sha := pstr "unknown", error := [] }) := by
  refine ⟨?_, ?_, ?_, ?_⟩
  · intro story_id title files env f
    rw [commit_storyT_trace]
    by_cases hne : files = []
    · subst hne
      simp
    · rw [if_neg hne, List.mem_filter]
      rw [fileQualifies]
      constructor
      · rintro ⟨hmem, hq⟩
        simp only [Bool.and_eq_true, Bool.or_eq_true, decide_eq_true_eq,
          Bool.not_eq_eq_eq_not, Bool.not_true, List.isEmpty_eq_false,
          List.isEmpty_iff] at hq
        refine ⟨hmem, hq.1, ?_⟩
        rcases hq.2 with ⟨h1, h2⟩ | ⟨h1, h2⟩
        · exact Or.inl ⟨h1, h2⟩
        · exact Or.inr ⟨h1, h2⟩
      · rintro ⟨hmem, hex, hq⟩
        refine ⟨hmem, ?_⟩
        simp only [Bool.and_eq_true, Bool.or_eq_true, decide_eq_true_eq,
          Bool.not_eq_eq_eq_not, Bool.not_true, List.isEmpty_eq_false,
          List.isEmpty_iff]
        refine ⟨hex, ?_⟩
        rcases hq with ⟨h1, h2⟩ | ⟨h1, h2⟩
        · exact Or.inl ⟨h1, h2⟩
        · exact Or.inr ⟨h1, h2⟩
  · intro story_id title files env hne hfil
    rw [commit_story]
    simp only [commit_storyT]
    rw [if_neg hne, if_pos hfil]
  · intro story_id title files env hne hfil hadd
    simp only [commit_storyT]
    rw [if_neg hne, if_neg hfil, stageAll_none env _ hadd]
    dsimp only
    split
    · split
      · rfl
      · rfl
    · split
      · rfl
      · rfl
  · intro story_id title files env hne hfil hadd hcommit hsha
    rw [commit_story]
    simp only [commit_storyT]
    rw [if_neg hne, if_neg hfil, stageAll_none env _ hadd]
    dsimp only
    rw [if_neg (by rw [hcommit]; simp), if_pos hsha]

/-- C8 counterexample: with an empty whitelist no file qualifies, yet the
failure carries the distinct `No files provided to commit` error rather than
the no-whitelisted-files-have-changes error the claim names. -/
theorem c8_counterexample :
    (commit_story (pstr "US-1") (pstr "Title") []
      { exists_on_disk := fun _ => false,
        diff_head := fun _ => { returncode := 1, stdout := [], stderr := [] },
        ls_files := fun _ => { returncode := 1, stdout := [], stderr := [] },
        add := fun _ => { returncode := 0, stdout := [], stderr := [] },
        commit := fun _ => { returncode := 0, stdout := [], stderr := [] },
        rev_parse := { returncode := 0, stdout := pstr "abc", stderr := [] } }).success
      = false
    ∧ (commit_story (pstr "US-1") (pstr "Title") []
      { exists_on_disk := fun _ => false,
        diff_head := fun _ => { returncode := 1, stdout := [], stderr := [] },
        ls_files := fun _ => { returncode := 1, stdout := [], stderr := [] },
        add := fun _ => { returncode := 0, stdout := [], stderr := [] },
        commit := fun _ => { returncode := 0, stdout := [], stderr := [] },
        rev_parse := { returncode := 0, stdout := pstr "abc", stderr := [] } }).error
      ≠ pstr "No whitelisted files have changes to commit" := by
  refine ⟨rfl, by decide⟩

/-- A repository state in which `a.py` has a diff against HEAD, `b.py` is
present but unchanged, commit succeeds, and the SHA lookup fails. -/
def gitEnvChanged : GitEnv :=
  { exists_on_disk := fun _ => true,
    diff_head := fun f =>
      if f = pstr "a.py" then { returncode := 0, stdout := pstr "a.py\n", stderr := [] }
      else { returncode := 0, stdout := [], stderr := [] },
    ls_files := fun _ => { returncode := 0, stdout := [], stderr := [] },
    add := fun _ => { returncode := 0, stdout := [], stderr := [] },
    commit := fun _ => { returncode := 0, stdout := [], stderr := [] },
    rev_parse := { returncode := 1, stdout := [], stderr := pstr "boom" } }

/-- A repository state with no changes at all. -/
def gitEnvClean : GitEnv :=
  { exists_on_disk := fun _ => true,
    diff_head := fun _ => { returncode := 0, stdout := [], stderr := [] },
    ls_files := fun _ => { returncode := 0, stdout := [], stderr := [] },
    add := fun _ => { returncode := 0, stdout := [], stderr := [] },
    commit := fun _ => { returncode := 0, stdout := [], stderr := [] },
    rev_parse := { returncode := 0, stdout := pstr "abc", stderr := [] } }

/-- Witness for C8: `a.py` is staged, a clean tree yields the
no-whitelisted-files error, the message is `feat: US-1 - Title`, and a failed
SHA lookup after a successful commit yields success with sha `unknown`. -/
theorem c8_witness :
    pstr "a.py" ∈ (commit_storyT (pstr "US-1") (pstr "Title")
      [pstr "a.py", pstr "b.py"] gitEnvChanged).2.1
    ∧ commit_story (pstr "US-1") (pstr "Title") [pstr "a.py", pstr "b.py"] gitEnvClean =
        { success := false, sha := [],
          error := pstr "No whitelisted files have changes to commit" }
    ∧ (commit_storyT (pstr "US-1") (pstr "Title")
        [pstr "a.py", pstr "b.py"] gitEnvChanged).2.2 =
        some (pstr "feat: " ++ pstr "US-1" ++ pstr " - " ++ pstr "Title")
    ∧ commit_story (pstr "US-1") (pstr "Title") [pstr "a.py", pstr "b.py"] gitEnvChanged =
        { success := true, sha := pstr "unknown", error := [] } :=
  ⟨(c8_commit_story_spec.1 (pstr "US-1") (pstr "Title")
      [pstr "a.py", pstr "b.py"] gitEnvChanged (pstr "a.py")).2 (by decide),
    c8_commit_story_spec.2.1 (pstr "US-1") (pstr "Title")
      [pstr "a.py", pstr "b.py"] gitEnvClean (by decide) (by decide),
    c8_commit_story_spec.2.2.1 (pstr "US-1") (pstr "Title")
      [pstr "a.py", pstr "b.py"] gitEnvChanged (by decide) (by decide) (by decide),
    c8_commit_story_spec.2.2.2 (pstr "US-1") (pstr "Title")
      [pstr "a.py", pstr "b.py"] gitEnvChanged (by decide) (by decide) (by decide)
      (by decide) (by decide)⟩

/-! ### Progress store (`shared/progress.py`) -/

structure ProgressContext where
  patterns : List PyStr
  recent_history : List PyStr
deriving DecidableEq, Repr

/-- Date-entry head `\d{4}-\d{2}-\d{2}` (checked on the first 10 characters
after `## `). -/
def isDateStart (s : PyStr) : Bool :=
  match s.take 10 with
  | [d1, d2, d3, d4, h1, m1, m2, h2, a1, a2] =>
    d1.isDigit && d2.isDigit && d3.isDigit && d4.isDigit && h1 = '-'
      && m1.isDigit && m2.isDigit && h2 = '-' && a1.isDigit && a2.isDigit
  | _ => false

/-- A position matching `## \d{4}-\d{2}-\d{2}` — the anchor of the history
entry regex of `_extract_history_entries`. -/
def isEntryStart (s : PyStr) : Bool :=
  isPre (pstr "## ") s && isDateStart (s.drop 3)

/-- One step of `re.search(r"## Codebase Patterns\s*\n...")` at the position
just after a header occurrence: `\s*` greedily eats the maximal whitespace
run `w` and backtracks to the last newline inside it, so the match succeeds
iff `w` contains a newline, and `group(1)` starts right after that last
newline (keeping any trailing spaces of `w`). -/
def afterLastNewlineInWs (t : PyStr) : Option PyStr :=
  let w := t.takeWhile isPySpace
  if w.contains '\n' then
    some ((w.reverse.takeWhile (fun c => c ≠ '\n')).reverse ++ t.drop w.length)
  else none

/-- Scan for the first occurrence of `## Codebase Patterns` that is followed
by `\s*\n` (otherwise `re.search` keeps scanning), returning the suffix at
which `group(1)` of the patterns regex starts. -/
def patternsTail : PyStr → Option PyStr
  | [] => none
  | c :: rest =>
    if isPre (pstr "## Codebase Patterns") (c :: rest) then
      match afterLastNewlineInWs ((c :: rest).drop (pstr "## Codebase Patterns").length) with
      | some tail => some tail
      | none => patternsTail rest
    else patternsTail rest

/-- The lazy `(.*?)(?=\n---|\n## |\Z)` of the patterns regex: characters up
to the first `\n---` or `\n## ` (or the end). -/
def sectionUntil : PyStr → PyStr
  | [] => []
  | c :: rest =>
    if isPre (pstr "\n---") (c :: rest) || isPre (pstr "\n## ") (c :: rest) then []
    else c :: sectionUntil rest

/-- `_extract_patterns` from `shared/progress.py`. -/
def extract_patterns (content : PyStr) : List PyStr :=
  match patternsTail content with
  | none => []
  | some tail =>
    ((splitLines (sectionUntil tail)).map pyStrip).filter
      (fun l => isPre (pstr "- ") l)

/-- Fuel-driven scanner for the non-overlapping matches of
`(## \d{4}-\d{2}-\d{2}.*?(?=\n---|\Z))` (`re.findall`): at each entry
anchor, the lazy body runs to the first `\n---` (not consumed) or the end,
and scanning resumes right after the body. -/
def entryScanAux : Nat → PyStr → List PyStr
  | 0, _ => []
  | _ + 1, [] => []
  | fuel + 1, c :: rest =>
    if isEntryStart (c :: rest) then
      (takeUntilSub (pstr "\n---") (c :: rest)) ::
        entryScanAux fuel
          ((c :: rest).drop (takeUntilSub (pstr "\n---") (c :: rest)).length)
    else entryScanAux fuel rest

def entryScan (s : PyStr) : List PyStr := entryScanAux s.length s

/-- `_extract_history_entries` from `shared/progress.py`. -/
def extract_history_entries (content : PyStr) : List PyStr :=
  ((entryScan content).map pyStrip).filter (fun e => !e.isEmpty)

/-- The pure core of `load_learnings` from `shared/progress.py`, for an
existing progress file with the given text content (`max_history` is a
Python `int`; `entries[-max_history:]`). -/
def load_learnings (content : PyStr) (max_history : Int) : ProgressContext :=
  { patterns := extract_patterns content,
    recent_history :=
      if extract_history_entries content = [] then []
      else pySliceFrom (extract_history_entries content) (-max_history) }

/-- C9 counterexample: with `max_history = 0` (a legal `int` argument),
Python's `entries[-0:]` is the whole list, so `load_learnings` returns all
`N = 1` entries instead of `min(N, 0) = 0`. -/
theorem c9_counterexample :
    (load_learnings (pstr "# Ralph Progress Log\nStarted: X\n\n## Codebase Patterns\n- p1\n---\n\n## Recent History\n---\n\n## 2024-01-01 - US-001\nDid stuff\n---\n") 0).recent_history
      = [pstr "## 2024-01-01 - US-001\nDid stuff"]
    ∧ ¬ ((load_learnings (pstr "# Ralph Progress Log\nStarted: X\n\n## Codebase Patterns\n- p1\n---\n\n## Recent History\n---\n\n## 2024-01-01 - US-001\nDid stuff\n---\n") 0).recent_history.length = 0) := by
  refine ⟨by decide, by decide⟩

theorem isPre_cons_false (p0 : Char) (pt : PyStr) (c : Char) (t : PyStr)
    (h : c ≠ p0) : isPre (p0 :: pt) (c :: t) = false := by
  simp only [isPre, Bool.and_eq_false_iff, decide_eq_false_iff_not]
  left
  exact fun hp => h hp.symm

theorem isPre_long (p A X : PyStr) (h : p.length ≤ A.length) :
    isPre p (A ++ X) = isPre p A := by
  cases hb : isPre p A with
  | true =>
    rcases (isPre_iff p A).1 hb with ⟨t, rfl⟩
    rw [List.append_assoc]
    exact isPre_append p (t ++ X)
  | false =>
    cases hb2 : isPre p (A ++ X) with
    | false => rfl
    | true =>
      rw [isPre_take] at hb2
      rw [List.take_append_eq_append_take, Nat.sub_eq_zero_of_le h] at hb2
      simp only [List.take_zero, List.append_nil] at hb2
      have ht := (isPre_take p A).2 hb2
      exact ht.symm.trans hb
  
theorem isDateStart_long (A X : PyStr) (h : 10 ≤ A.length) :
    isDateStart (A ++ X) = isDateStart A := by
  rw [isDateStart, isDateStart]
  rw [List.take_append_eq_append_take, Nat.sub_eq_zero_of_le h]
  rw [List.take_zero, List.append_nil]

theorem isEntryStart_long (A X : PyStr) (h : 13 ≤ A.length) :
    isEntryStart (A ++ X) = isEntryStart A := by
  rw [isEntryStart, isEntryStart]
  rw [isPre_long _ _ _ (by rw [show (pstr "## ").length = 3 from rfl]; omega)]
  rw [List.drop_append_eq_append_drop, Nat.sub_eq_zero_of_le (by omega)]
  rw [List.drop_zero]
  rw [isDateStart_long (A.drop 3) X (by rw [List.length_drop]; omega)]

theorem entryStart_head (c : Char) (rest : PyStr)
    (he : isEntryStart (c :: rest) = true) : c = '#' := by
  rw [isEntryStart, Bool.and_eq_true] at he
  rcases (isPre_iff _ _).1 he.1 with ⟨u, hu⟩
  have h0 := congrArg List.head? hu
  simpa [pstr] using h0

theorem entryStart_body_ne (c : Char) (rest : PyStr)
    (he : isEntryStart (c :: rest) = true) :
    takeUntilSub (pstr "\n---") (c :: rest) ≠ [] := by
  have hc := entryStart_head c rest he
  have hd : pstr "\n---" = '\n' :: pstr "---" := by decide
  rw [takeUntilSub, hd, isPre_cons_false '\n' (pstr "---") c rest (by rw [hc]; decide)]
  simp

theorem entryScanAux_fuel : ∀ (f1 f2 : Nat) (s : PyStr), s.length ≤ f1 →
    s.length ≤ f2 → entryScanAux f1 s = entryScanAux f2 s := by
  intro f1
  induction f1 with
  | zero =>
    intro f2 s h1 _
    have hs : s = [] := List.eq_nil_of_length_eq_zero (Nat.le_zero.mp h1)
    subst hs
    cases f2 <;> rfl
  | succ f1 ih =>
    intro f2 s h1 h2
    cases s with
    | nil => cases f2 <;> rfl
    | cons c rest =>
      cases f2 with
      | zero => exact absurd h2 (by simp)
      | succ f2 =>
        rw [entryScanAux, entryScanAux]
        by_cases he : isEntryStart (c :: rest) = true
        · rw [if_pos he, if_pos he]
          have hbody := entryStart_body_ne c rest he
          have hb1 : 1 ≤ (takeUntilSub (pstr "\n---") (c :: rest)).length := by
            cases hb : takeUntilSub (pstr "\n---") (c :: rest) with
            | nil => exact absurd hb hbody
            | cons _ _ => simp
          have hlen1 : ((c :: rest).drop
              (takeUntilSub (pstr "\n---") (c :: rest)).length).length ≤ f1 := by
            simp only [List.length_drop, List.length_cons]
            simp only [List.length_cons] at h1
            omega
          have hlen2 : ((c :: rest).drop
              (takeUntilSub (pstr "\n---") (c :: rest)).length).length ≤ f2 := by
            simp only [List.length_drop, List.length_cons]
            simp only [List.length_cons] at h2
            omega
          rw [ih f2 _ hlen1 hlen2]
        · rw [if_neg he, if_neg he]
          refine ih f2 rest ?_ ?_
          · simp only [List.length_cons] at h1
            omega
          · simp only [List.length_cons] at h2
            omega

theorem entryScan_cons (c : Char) (rest : PyStr) :
    entryScan (c :: rest) =
      if isEntryStart (c :: rest) then
        (takeUntilSub (pstr "\n---") (c :: rest)) ::
          entryScan ((c :: rest).drop
            (takeUntilSub (pstr "\n---") (c :: rest)).length)
      else entryScan rest := by
  rw [entryScan, List.length_cons, entryScanAux]
  by_cases he : isEntryStart (c :: rest) = true
  · rw [if_pos he, if_pos he, entryScan]
    congr 1
    have hb1 : 1 ≤ (takeUntilSub (pstr "\n---") (c :: rest)).length := by
      cases hb : takeUntilSub (pstr "\n---") (c :: rest) with
      | nil => exact absurd hb (entryStart_body_ne c rest he)
      | cons _ _ => simp
    apply entryScanAux_fuel
    · simp only [List.length_drop, List.length_cons]
      omega
    · exact Nat.le_refl _
  · rw [if_neg he, if_neg he, entryScan]

theorem isEntryStart_false_of_head (c : Char) (t : PyStr) (h : c ≠ '#') :
    isEntryStart (c :: t) = false := by
  have hd : pstr "## " = '#' :: pstr "# " := by decide
  rw [isEntryStart, hd, isPre_cons_false '#' (pstr "# ") c t h]
  simp

theorem entryScan_skip_nohash (A B : PyStr) (hA : ∀ c ∈ A, c ≠ '#') :
    entryScan (A ++ B) = entryScan B := by
  induction A with
  | nil => simp
  | cons c A ih =>
    rw [List.cons_append, entryScan_cons,
      if_neg (by
        rw [isEntryStart_false_of_head c (A ++ B) (hA c (List.mem_cons_self _ _))]
        simp)]
    exact ih (fun x hx => hA x (List.mem_cons_of_mem c hx))

theorem entryScan_skip_concrete (A B : PyStr) (h13 : 13 ≤ A.length)
    (hA : isEntryStart A = false) (hAne : A ≠ []) :
    entryScan (A ++ B) = entryScan (A.tail ++ B) := by
  cases A with
  | nil => exact absurd rfl hAne
  | cons c A =>
    rw [List.cons_append, entryScan_cons,
      if_neg (by rw [← List.cons_append, isEntryStart_long _ _ (by simpa using h13), hA]; simp)]
    rfl

theorem isDateStart_len (s : PyStr) (h : isDateStart s = true) :
    10 ≤ s.length := by
  by_contra hlt
  push_neg at hlt
  have htake : s.take 10 = s := List.take_of_length_le (by omega)
  rw [isDateStart, htake] at h
  rcases s with _ | ⟨a1, _ | ⟨a2, _ | ⟨a3, _ | ⟨a4, _ | ⟨a5, _ | ⟨a6, _ |
    ⟨a7, _ | ⟨a8, _ | ⟨a9, _ | ⟨a10, t⟩⟩⟩⟩⟩⟩⟩⟩⟩⟩
  all_goals try exact Bool.noConfusion h
  simp only [List.length_cons] at hlt
  omega

theorem entryStart_len (e : PyStr) (he : isEntryStart e = true) :
    13 ≤ e.length := by
  rw [isEntryStart, Bool.and_eq_true] at he
  have h3 : 3 ≤ e.length := by
    rcases (isPre_iff _ _).1 he.1 with ⟨u, hu⟩
    rw [hu]
    simp [pstr]
  have h10 := isDateStart_len _ he.2
  rw [List.length_drop] at h10
  omega

theorem isEntryStart_append (e R : PyStr) (he : isEntryStart e = true) :
    isEntryStart (e ++ R) = true := by
  rw [isEntryStart_long e R (entryStart_len e he)]
  exact he

theorem entryScan_entry (e R : PyStr) (he : isEntryStart e = true)
    (hR : isPre (pstr "\n---") R = true)
    (hno : containsSub (pstr "\n---") (e ++ R.take 3) = false) :
    entryScan (e ++ R) = e :: entryScan R := by
  have hbody : takeUntilSub (pstr "\n---") (e ++ R) = e := by
    apply takeUntilSub_append _ _ _ hR
    rw [show (pstr "\n---").length - 1 = 3 from by decide]
    rw [hno]
    simp
  cases he2 : e with
  | nil =>
    rw [he2] at he
    rw [isEntryStart] at he
    simp [isPre, pstr] at he
  | cons c e' =>
    subst he2
    rw [List.cons_append, entryScan_cons, ← List.cons_append]
    rw [if_pos (by rw [isEntryStart_append (c :: e') R he])]
    rw [hbody, List.drop_left]

def entriesBlock : List PyStr → PyStr
  | [] => []
  | e :: rest => e ++ (pstr "\n---\n\n" ++ entriesBlock rest)

theorem entryScan_entriesBlock (entries : List PyStr)
    (hent : ∀ e ∈ entries, isEntryStart e = true ∧
      containsSub (pstr "\n---") (e ++ pstr "\n--") = false) :
    entryScan (entriesBlock entries) = entries := by
  induction entries with
  | nil => rfl
  | cons e rest ih =>
    rw [entriesBlock]
    have htake : (pstr "\n---\n\n" ++ entriesBlock rest).take 3 = pstr "\n--" := by
      rw [List.take_append_eq_append_take]
      rw [show (pstr "\n---\n\n").take 3 = pstr "\n--" from by decide]
      rw [show 3 - (pstr "\n---\n\n").length = 0 from by decide]
      rw [List.take_zero, List.append_nil]
    rw [entryScan_entry e _ (hent e (List.mem_cons_self _ _)).1
      (by rw [show pstr "\n---\n\n" = pstr "\n---" ++ pstr "\n\n" from by decide,
        List.append_assoc]
          exact isPre_append _ _)
      (by rw [htake]; exact (hent e (List.mem_cons_self _ _)).2)]
    rw [entryScan_skip_nohash (pstr "\n---\n\n") _ (by decide)]
    rw [ih (fun x hx => hent x (List.mem_cons_of_mem _ hx))]

theorem patternsTail_cons_skip (c : Char) (t : PyStr)
    (h : isPre (pstr "## Codebase Patterns") (c :: t) = false) :
    patternsTail (c :: t) = patternsTail t := by
  rw [patternsTail, if_neg (by rw [h]; simp)]

theorem patternsTail_skip_nohash (A B : PyStr) (hA : ∀ c ∈ A, c ≠ '#') :
    patternsTail (A ++ B) = patternsTail B := by
  induction A with
  | nil => simp
  | cons c A ih =>
    rw [List.cons_append, patternsTail_cons_skip c _
      (by rw [show pstr "## Codebase Patterns" = '#' :: pstr "# Codebase Patterns"
          from by decide]
          exact isPre_cons_false _ _ _ _ (hA c (List.mem_cons_self _ _)))]
    exact ih (fun x hx => hA x (List.mem_cons_of_mem c hx))

theorem patternsTail_found (Z tl : PyStr)
    (h : afterLastNewlineInWs Z = some tl) :
    patternsTail (pstr "## Codebase Patterns" ++ Z) = some tl := by
  have hd : pstr "## Codebase Patterns" = '#' :: pstr "# Codebase Patterns" := by
    decide
  rw [hd, List.cons_append, patternsTail, ← List.cons_append, ← hd]
  rw [if_pos (by rw [isPre_append])]
  rw [List.drop_left, h]

theorem afterLastNewlineInWs_one (x : Char) (X : PyStr)
    (hx : isPySpace x = false) :
    afterLastNewlineInWs ('\n' :: x :: X) = some (x :: X) := by
  have h1 : isPySpace '\n' = true := by decide
  rw [afterLastNewlineInWs]
  simp only [List.takeWhile, h1, hx]
  simp

theorem afterLastNewlineInWs_two (x : Char) (X : PyStr)
    (hx : isPySpace x = false) :
    afterLastNewlineInWs ('\n' :: '\n' :: x :: X) = some (x :: X) := by
  have h1 : isPySpace '\n' = true := by decide
  rw [afterLastNewlineInWs]
  simp only [List.takeWhile, h1, hx]
  simp

theorem sectionUntil_append (A B : PyStr)
    (hstart : isPre (pstr "\n---") B = true ∨ isPre (pstr "\n## ") B = true)
    (h1 : ¬ containsSub (pstr "\n---") (A ++ B.take 3) = true)
    (h2 : ¬ containsSub (pstr "\n## ") (A ++ B.take 3) = true) :
    sectionUntil (A ++ B) = A := by
  induction A with
  | nil =>
    cases B with
    | nil =>
      rcases hstart with hs | hs <;> simp [isPre, pstr] at hs
    | cons b bs =>
      rw [List.nil_append, sectionUntil, if_pos]
      rcases hstart with hs | hs
      · rw [hs]
        simp
      · rw [hs]
        simp
  | cons c A ih =>
    have hn1 : isPre (pstr "\n---") (c :: (A ++ B)) = false := by
      cases hb : isPre (pstr "\n---") (c :: (A ++ B)) with
      | false => rfl
      | true =>
        rw [← List.cons_append] at hb
        have := isPre_transfer _ (c :: A) B 3 hb (by simp [pstr] <;> omega)
        exact absurd (containsSub_of_isPre _ _ (by simpa using this)) h1
    have hn2 : isPre (pstr "\n## ") (c :: (A ++ B)) = false := by
      cases hb : isPre (pstr "\n## ") (c :: (A ++ B)) with
      | false => rfl
      | true =>
        rw [← List.cons_append] at hb
        have := isPre_transfer _ (c :: A) B 3 hb (by simp [pstr] <;> omega)
        exact absurd (containsSub_of_isPre _ _ (by simpa using this)) h2
    rw [List.cons_append, sectionUntil, if_neg (by rw [hn1, hn2]; simp)]
    have hpeel1 := (not_containsSub_cons _ c (A ++ B.take 3) h1).2
    have hpeel2 := (not_containsSub_cons _ c (A ++ B.take 3) h2).2
    rw [ih hpeel1 hpeel2]

theorem containsSub_skip_nohead (n0 : Char) (nt p R : PyStr) (hp : n0 ∉ p) :
    containsSub (n0 :: nt) (p ++ R) = containsSub (n0 :: nt) R := by
  induction p with
  | nil => simp
  | cons c p ih =>
    rw [List.cons_append, containsSub,
      isPre_cons_false n0 nt c _
        (fun hc => hp (hc ▸ List.mem_cons_self c p))]
    rw [Bool.false_or]
    exact ih (fun hm => hp (List.mem_cons_of_mem c hm))

theorem hash_not_mem_join (pats : List PyStr) (h : ∀ p ∈ pats, '#' ∉ p) :
    '#' ∉ joinLines pats := by
  induction pats with
  | nil => simp [joinLines]
  | cons p rest ih =>
    cases rest with
    | nil =>
      rw [joinLines]
      exact h p (List.mem_cons_self _ _)
    | cons p2 rest2 =>
      rw [joinLines]
      intro hm
      rcases List.mem_append.1 hm with hm | hm
      · exact h p (List.mem_cons_self _ _) hm
      · rcases List.mem_cons.1 hm with hm | hm
        · exact absurd hm (by decide)
        · exact ih (fun x hx => h x (List.mem_cons_of_mem p hx)) hm

theorem no_nlsharp (s : PyStr) (hs : '#' ∉ s) :
    containsSub (pstr "\n## ") s = false := by
  cases hb : containsSub (pstr "\n## ") s with
  | false => rfl
  | true =>
    rcases (containsSub_iff _ _).1 hb with ⟨a, b, hab⟩
    exact absurd (by rw [hab]; simp [pstr] : '#' ∈ s) hs

theorem joinLines_cons_decomp (p : PyStr) (rest : List PyStr) :
    ∃ w, joinLines (p :: rest) = p ++ w := by
  cases rest with
  | nil => exact ⟨[], by rw [joinLines, List.append_nil]⟩
  | cons p2 rest2 => exact ⟨'\n' :: joinLines (p2 :: rest2), by rw [joinLines]⟩

theorem isPre_dash_space (X : PyStr) :
    isPre (pstr "---") (pstr "- " ++ X) = false := by
  rw [show pstr "- " ++ X = '-' :: ' ' :: X from by simp [pstr]]
  rw [show pstr "---" = '-' :: '-' :: pstr "-" from by decide]
  simp [isPre]

theorem patBlock_no_nl3dash (pats : List PyStr)
    (hp : ∀ p ∈ pats, isPre (pstr "- ") p = true ∧ '\n' ∉ p) :
    containsSub (pstr "\n---") (joinLines pats ++ pstr "\n--") = false := by
  have hd : pstr "\n---" = '\n' :: pstr "---" := by decide
  induction pats with
  | nil => decide
  | cons p rest ih =>
    cases rest with
    | nil =>
      rw [joinLines, hd,
        containsSub_skip_nohead '\n' (pstr "---") p _
          (hp p (List.mem_cons_self _ _)).2]
      decide
    | cons p2 rest2 =>
      rw [joinLines, List.append_assoc, List.cons_append, hd,
        containsSub_skip_nohead '\n' (pstr "---") p _
          (hp p (List.mem_cons_self _ _)).2]
      rw [containsSub]
      have hres := ih (fun x hx => hp x (List.mem_cons_of_mem p hx))
      rw [hd] at hres
      rw [hres, Bool.or_false]
      simp only [isPre]
      rcases (isPre_iff _ _).1 (hp p2 (by simp)).1 with ⟨u, hu⟩
      obtain ⟨w, hw⟩ := joinLines_cons_decomp p2 rest2
      rw [hw, hu]
      simp only [List.append_assoc]
      rw [isPre_dash_space]
      simp

theorem entryScan_skip_one (a : Char) (A B : PyStr)
    (h13 : 13 ≤ (a :: A).length) (hA : isEntryStart (a :: A) = false) :
    entryScan ((a :: A) ++ B) = entryScan (A ++ B) := by
  rw [List.cons_append, entryScan_cons,
    if_neg (by rw [← List.cons_append, isEntryStart_long _ _ h13, hA]; simp)]

theorem entryScan_skip_char (a : Char) (B : PyStr) (ha : a ≠ '#') :
    entryScan (a :: B) = entryScan B := by
  rw [entryScan_cons, if_neg (by rw [isEntryStart_false_of_head a B ha]; simp)]

theorem patternsTail_skip_one (a : Char) (A B : PyStr)
    (hlen : (pstr "## Codebase Patterns").length ≤ (a :: A).length)
    (hA : isPre (pstr "## Codebase Patterns") (a :: A) = false) :
    patternsTail ((a :: A) ++ B) = patternsTail (A ++ B) := by
  rw [List.cons_append, patternsTail_cons_skip a _
    (by rw [← List.cons_append, isPre_long _ _ _ hlen, hA])]

theorem afterLastNewlineInWs_one' (X : PyStr) (x : Char) (hX : X.head? = some x)
    (hx : isPySpace x = false) : afterLastNewlineInWs ('\n' :: X) = some X := by
  cases X with
  | nil => simp at hX
  | cons y Y =>
    simp only [List.head?_cons, Option.some_inj] at hX
    subst hX
    exact afterLastNewlineInWs_one y Y hx

theorem listMapSelf {α : Type} (f : α → α) (l : List α)
    (h : ∀ x ∈ l, f x = x) : l.map f = l := by
  induction l with
  | nil => rfl
  | cons x xs ih =>
    rw [List.map_cons, h x (List.mem_cons_self _ _),
      ih (fun y hy => h y (List.mem_cons_of_mem x hy))]

theorem listFilterSelf {α : Type} (p : α → Bool) (l : List α)
    (h : ∀ x ∈ l, p x = true) : l.filter p = l := by
  induction l with
  | nil => rfl
  | cons x xs ih =>
    rw [List.filter_cons, if_pos (h x (List.mem_cons_self _ _)),
      ih (fun y hy => h y (List.mem_cons_of_mem x hy))]

/-- The family of well-formed progress files the claim quantifies over:
the creation template's preamble, a Patterns section holding the bullet
lines `pats`, and the dated history entries `entries`, each terminated by a
`---` line. -/
def progressContent (ts : PyStr) (pats entries : List PyStr) : PyStr :=
  pstr "# Ralph Progress Log\nStarted: " ++ (ts
    ++ (pstr "\n\n" ++ (pstr "## Codebase Patterns" ++ ('\n' :: (joinLines pats
    ++ (pstr "\n---\n\n" ++ (pstr "## Recent History" ++ (pstr "\n---\n"
    ++ entriesBlock entries))))))))

theorem entryScan_progress (ts : PyStr) (pats entries : List PyStr)
    (hts : ∀ c ∈ ts, c ≠ '#')
    (hpats : ∀ c ∈ joinLines pats, c ≠ '#')
    (hent : ∀ e ∈ entries, isEntryStart e = true ∧
      containsSub (pstr "\n---") (e ++ pstr "\n--") = false) :
    entryScan (progressContent ts pats entries) = entries := by
  rw [progressContent]
  rw [show pstr "# Ralph Progress Log\nStarted: " =
    '#' :: pstr " Ralph Progress Log\nStarted: " from by decide]
  rw [entryScan_skip_one '#' (pstr " Ralph Progress Log\nStarted: ") _
    (by decide) (by decide)]
  rw [entryScan_skip_nohash (pstr " Ralph Progress Log\nStarted: ") _ (by decide)]
  rw [entryScan_skip_nohash ts _ hts]
  rw [entryScan_skip_nohash (pstr "\n\n") _ (by decide)]
  rw [show pstr "## Codebase Patterns" = '#' :: pstr "# Codebase Patterns"
    from by decide]
  rw [entryScan_skip_one '#' (pstr "# Codebase Patterns") _ (by decide) (by decide)]
  rw [show pstr "# Codebase Patterns" = '#' :: pstr " Codebase Patterns"
    from by decide]
  rw [entryScan_skip_one '#' (pstr " Codebase Patterns") _ (by decide) (by decide)]
  rw [entryScan_skip_nohash (pstr " Codebase Patterns") _ (by decide)]
  rw [entryScan_skip_char '\n' _ (by decide)]
  rw [entryScan_skip_nohash (joinLines pats) _ hpats]
  rw [entryScan_skip_nohash (pstr "\n---\n\n") _ (by decide)]
  rw [show pstr "## Recent History" = '#' :: pstr "# Recent History"
    from by decide]
  rw [entryScan_skip_one '#' (pstr "# Recent History") _ (by decide) (by decide)]
  rw [show pstr "# Recent History" = '#' :: pstr " Recent History"
    from by decide]
  rw [entryScan_skip_one '#' (pstr " Recent History") _ (by decide) (by decide)]
  rw [entryScan_skip_nohash (pstr " Recent History") _ (by decide)]
  rw [entryScan_skip_nohash (pstr "\n---\n") _ (by decide)]
  exact entryScan_entriesBlock entries hent

theorem sectionUntil_go_ne (c : Char) (B : PyStr) (hc : c ≠ '\n') :
    sectionUntil (c :: B) = c :: sectionUntil B := by
  have hA : pstr "\n---" = '\n' :: pstr "---" := by decide
  have hB : pstr "\n## " = '\n' :: pstr "## " := by decide
  rw [sectionUntil, if_neg]
  rw [hA, hB, isPre_cons_false _ _ _ _ hc, isPre_cons_false _ _ _ _ hc]
  simp

theorem sectionUntil_stop (c : Char) (B : PyStr)
    (h : isPre (pstr "\n---") (c :: B) = true ∨ isPre (pstr "\n## ") (c :: B) = true) :
    sectionUntil (c :: B) = [] := by
  rw [sectionUntil, if_pos]
  rcases h with h | h
  · rw [h]
    simp
  · rw [h]
    simp

theorem sectionUntil_nlnl (Y : PyStr) :
    sectionUntil ('\n' :: ('\n' :: Y)) = '\n' :: sectionUntil ('\n' :: Y) := by
  rw [sectionUntil, if_neg]
  rw [show pstr "\n---" = '\n' :: pstr "---" from by decide,
    show pstr "\n## " = '\n' :: pstr "## " from by decide]
  simp only [isPre, Bool.or_eq_true, Bool.and_eq_true, decide_eq_true_eq]
  rintro (⟨_, h⟩ | ⟨_, h⟩)
  · exact absurd h.1 (by decide)
  · exact absurd h.1 (by decide)

theorem patternsTail_progress_pre (ts X : PyStr) (hts : ∀ c ∈ ts, c ≠ '#') :
    patternsTail (pstr "# Ralph Progress Log\nStarted: " ++ (ts
      ++ (pstr "\n\n" ++ (pstr "## Codebase Patterns" ++ ('\n' :: X))))) =
    patternsTail (pstr "## Codebase Patterns" ++ ('\n' :: X)) := by
  rw [show pstr "# Ralph Progress Log\nStarted: " =
    '#' :: pstr " Ralph Progress Log\nStarted: " from by decide]
  rw [patternsTail_skip_one '#' (pstr " Ralph Progress Log\nStarted: ") _
    (by decide) (by decide)]
  rw [patternsTail_skip_nohash (pstr " Ralph Progress Log\nStarted: ") _ (by decide)]
  rw [patternsTail_skip_nohash ts _ hts]
  rw [patternsTail_skip_nohash (pstr "\n\n") _ (by decide)]

theorem extract_patterns_progress (ts : PyStr) (pats entries : List PyStr)
    (hts : ∀ c ∈ ts, c ≠ '#')
    (hpat : ∀ p ∈ pats, isPre (pstr "- ") p = true ∧ pyStrip p = p ∧
      '\n' ∉ p ∧ '#' ∉ p) :
    extract_patterns (progressContent ts pats entries) = pats := by
  rw [extract_patterns, progressContent, patternsTail_progress_pre _ _ hts]
  cases pats with
  | nil =>
    rw [show joinLines ([] : List PyStr) = [] from rfl, List.nil_append]
    rw [show pstr "\n---\n\n" = '\n' :: ('-' :: pstr "--\n\n") from by decide]
    rw [List.cons_append, List.cons_append]
    rw [patternsTail_found _ _ (afterLastNewlineInWs_two '-' _ (by decide))]
    simp only []
    rw [sectionUntil_go_ne '-' _ (by decide)]
    rw [show pstr "--\n\n" = '-' :: pstr "-\n\n" from by decide, List.cons_append]
    rw [sectionUntil_go_ne '-' _ (by decide)]
    rw [show pstr "-\n\n" = '-' :: pstr "\n\n" from by decide, List.cons_append]
    rw [sectionUntil_go_ne '-' _ (by decide)]
    rw [show pstr "\n\n" = '\n' :: pstr "\n" from by decide, List.cons_append]
    rw [show pstr "\n" = ['\n'] from by decide, List.cons_append, List.nil_append]
    rw [sectionUntil_nlnl]
    rw [sectionUntil_stop '\n' _ (Or.inr (by
      rw [show pstr "## Recent History" = pstr "## " ++ pstr "Recent History"
        from by decide, List.append_assoc]
      rw [show pstr "\n## " = '\n' :: pstr "## " from by decide]
      rw [show ('\n' :: (pstr "## " ++ (pstr "Recent History" ++ (pstr "\n---\n"
        ++ entriesBlock entries)))) = ('\n' :: pstr "## ") ++ (pstr "Recent History"
        ++ (pstr "\n---\n" ++ entriesBlock entries)) from by rw [List.cons_append]]
      exact isPre_append _ _))]
    decide
  | cons p ps =>
    have hjoin : ∃ w, joinLines (p :: ps) = p ++ w := joinLines_cons_decomp p ps
    obtain ⟨w, hw⟩ := hjoin
    rcases (isPre_iff _ _).1 (hpat p (List.mem_cons_self _ _)).1 with ⟨u, hu⟩
    have hhead : (joinLines (p :: ps)
        ++ (pstr "\n---\n\n" ++ (pstr "## Recent History" ++ (pstr "\n---\n"
          ++ entriesBlock entries)))).head? = some '-' := by
      rw [hw, hu]
      rw [show pstr "- " = '-' :: [' '] from by decide]
      simp
    rw [patternsTail_found _ _ (afterLastNewlineInWs_one' _ '-' hhead (by decide))]
    simp only []
    have hsec : sectionUntil (joinLines (p :: ps)
        ++ (pstr "\n---\n\n" ++ (pstr "## Recent History" ++ (pstr "\n---\n"
          ++ entriesBlock entries)))) = joinLines (p :: ps) := by
      apply sectionUntil_append
      · left
        rw [show pstr "\n---\n\n" = pstr "\n---" ++ pstr "\n\n" from by decide,
          List.append_assoc]
        exact isPre_append _ _
      · rw [show (pstr "\n---\n\n" ++ (pstr "## Recent History" ++ (pstr "\n---\n"
          ++ entriesBlock entries))).take 3 = pstr "\n--" from by
            rw [List.take_append_eq_append_take]
            rw [show (pstr "\n---\n\n").take 3 = pstr "\n--" from by decide]
            rw [show 3 - (pstr "\n---\n\n").length = 0 from by decide]
            rw [List.take_zero, List.append_nil]]
        rw [patBlock_no_nl3dash (p :: ps)
          (fun x hx => ⟨(hpat x hx).1, (hpat x hx).2.2.1⟩)]
        simp
      · rw [show (pstr "\n---\n\n" ++ (pstr "## Recent History" ++ (pstr "\n---\n"
          ++ entriesBlock entries))).take 3 = pstr "\n--" from by
            rw [List.take_append_eq_append_take]
            rw [show (pstr "\n---\n\n").take 3 = pstr "\n--" from by decide]
            rw [show 3 - (pstr "\n---\n\n").length = 0 from by decide]
            rw [List.take_zero, List.append_nil]]
        rw [no_nlsharp _ (by
          intro hm
          rcases List.mem_append.1 hm with hm | hm
          · exact hash_not_mem_join (p :: ps)
              (fun x hx => (hpat x hx).2.2.2) hm
          · exact absurd hm (by decide))]
        simp
    rw [hsec]
    rw [splitLines_joinLines (p :: ps) (by simp)
      (fun x hx => (hpat x hx).2.2.1)]
    rw [listMapSelf pyStrip (p :: ps) (fun x hx => (hpat x hx).2.1)]
    rw [listFilterSelf _ (p :: ps) (fun x hx => (hpat x hx).1)]

theorem extract_history_progress (ts : PyStr) (pats entries : List PyStr)
    (hts : ∀ c ∈ ts, c ≠ '#')
    (hpats : ∀ c ∈ joinLines pats, c ≠ '#')
    (hent : ∀ e ∈ entries, isEntryStart e = true ∧ pyStrip e = e ∧
      containsSub (pstr "\n---") (e ++ pstr "\n--") = false) :
    extract_history_entries (progressContent ts pats entries) = entries := by
  rw [extract_history_entries,
    entryScan_progress ts pats entries hts hpats
      (fun e he => ⟨(hent e he).1, (hent e he).2.2⟩)]
  rw [listMapSelf pyStrip entries (fun e he => (hent e he).2.1)]
  rw [listFilterSelf _ entries (fun e he => by
    have h1 := (hent e he).1
    cases e with
    | nil =>
      rw [isEntryStart] at h1
      simp [isPre, pstr] at h1
    | cons c t => simp)]

/-- C9 (amended): for every well-formed progress file with timestamp `ts`, a
Patterns section holding exactly the bullet lines `pats`, and dated history
entries `entries`, and every `max_history ≥ 1`, `load_learnings` returns all
of `pats` (independently of the number of entries) and exactly the
`min(N, max_history)` most recent entries, in order. -/
theorem c9_load_learnings_window (ts : PyStr) (pats entries : List PyStr)
    (max_history : Int)
    (hts : ∀ c ∈ ts, c ≠ '#')
    (hpat : ∀ p ∈ pats, isPre (pstr "- ") p = true ∧ pyStrip p = p ∧
      '\n' ∉ p ∧ '#' ∉ p)
    (hent : ∀ e ∈ entries, isEntryStart e = true ∧ pyStrip e = e ∧
      containsSub (pstr "\n---") (e ++ pstr "\n--") = false)
    (hmh : 1 ≤ max_history) :
    (load_learnings (progressContent ts pats entries) max_history).patterns = pats
    ∧ (load_learnings (progressContent ts pats entries) max_history).recent_history
        = entries.drop (entries.length - max_history.toNat)
    ∧ ((load_learnings (progressContent ts pats entries) max_history).recent_history).length
        = min entries.length max_history.toNat := by
  have hpats' : ∀ c ∈ joinLines pats, c ≠ '#' := by
    intro c hc heq
    subst heq
    exact hash_not_mem_join pats (fun p hp => (hpat p hp).2.2.2) hc
  have hhist := extract_history_progress ts pats entries hts hpats' hent
  have hrec : (load_learnings (progressContent ts pats entries)
      max_history).recent_history
      = entries.drop (entries.length - max_history.toNat) := by
    rw [load_learnings]
    simp only [hhist]
    cases hE : entries with
    | nil => simp
    | cons e es =>
      rw [if_neg (by simp)]
      rw [pySliceFrom, if_pos (by omega)]
      congr 1
      omega
  refine ⟨?_, hrec, ?_⟩
  · rw [load_learnings]
    simp only []
    exact extract_patterns_progress ts pats entries hts hpat
  · rw [hrec, List.length_drop]
    omega

def tsW : PyStr := pstr "Mon Jan 01 00:00:00 2024"

def patsW : List PyStr := [pstr "- use pytest", pstr "- keep diffs small"]

def entriesW : List PyStr :=
  [pstr "## 2024-01-01 - US-001\none", pstr "## 2024-01-02 - US-002\ntwo",
   pstr "## 2024-01-03 - US-003\nthree", pstr "## 2024-01-04 - US-004\nfour",
   pstr "## 2024-01-05 - US-005\nfive", pstr "## 2024-01-06 - US-006\nsix"]

/-- Witness for C9: N = 6 entries with `max_history = 5` returns the whole
Patterns section and exactly the 5 most recent entries. -/
theorem c9_witness :
    (load_learnings (progressContent tsW patsW entriesW) 5).patterns = patsW
    ∧ (load_learnings (progressContent tsW patsW entriesW) 5).recent_history
        = entriesW.drop (entriesW.length - (5 : Int).toNat)
    ∧ ((load_learnings (progressContent tsW patsW entriesW) 5).recent_history).length
        = min entriesW.length (5 : Int).toNat :=
  c9_load_learnings_window tsW patsW entriesW 5 (by decide) (by decide)
    (by decide) (by decide)

/-! ### Git safety gate (referenced from `v_ralph.py`; spec-modelled) -/

/-- Modelled from the spec: the `GitSafetyCheck` record (check type, unsafe
flag, message).  The dataclass and the check/gate functions this section
models are referenced by the repository's test suite but are absent from
the shipped `v_ralph.py`, whose `cmd_run` is a placeholder. -/
structure GitSafetyCheck where
  check_type : PyStr
  is_unsafe : Bool
  message : PyStr
deriving DecidableEq, Repr

/-- Modelled from the spec: the repository facts the three git safety
checks consult. -/
structure RepoState where
  has_uncommitted_changes : Bool
  upstream_configured : Bool
  commits_ahead : Nat
  head_detached : Bool
deriving DecidableEq, Repr

/-- Modelled from the spec: uncommitted-changes check. -/
def check_git_uncommitted_changes (repo : RepoState) : GitSafetyCheck :=
  { check_type := pstr "uncommitted_changes",
    is_unsafe := repo.has_uncommitted_changes,
    message := if repo.has_uncommitted_changes
      then pstr "Uncommitted changes detected" else pstr "Working tree clean" }

/-- Modelled from the spec: unpushed-commits check; the absence of a
configured upstream is safe, not an error. -/
def check_git_unpushed_commits (repo : RepoState) : GitSafetyCheck :=
  { check_type := pstr "unpushed_commits",
    is_unsafe := repo.upstream_configured && decide (0 < repo.commits_ahead),
    message := if !repo.upstream_configured then pstr "No upstream configured"
      else if decide (0 < repo.commits_ahead) then pstr "Unpushed commits ahead of upstream"
      else pstr "Up to date with upstream" }

/-- Modelled from the spec: detached-HEAD check. -/
def check_git_detached_head (repo : RepoState) : GitSafetyCheck :=
  { check_type := pstr "detached_head",
    is_unsafe := repo.head_detached,
    message := if repo.head_detached then pstr "HEAD is detached"
      else pstr "On a branch (not detached)" }

/-- Modelled from the spec: run all three checks (always evaluated, never
short-circuited) and report whether any is unsafe. -/
def run_git_safety_checks (repo : RepoState) : List GitSafetyCheck × Bool :=
  let checks := [check_git_uncommitted_changes repo,
    check_git_unpushed_commits repo, check_git_detached_head repo]
  (checks, checks.any (fun c => GitSafetyCheck.is_unsafe c))

inductive RunGateDecision
  | blocked (findings : List GitSafetyCheck)
  | proceed (findings : List GitSafetyCheck)
deriving DecidableEq, Repr

/-- Modelled from the spec: the pre-flight gate of `cmd_run` — blocked when
any check is unsafe unless the override flag is set; the findings are
surfaced to the caller either way. -/
def cmd_run_gate (repo : RepoState) (force : Bool) : RunGateDecision :=
  let rc := run_git_safety_checks repo
  if rc.2 && !force then .blocked rc.1 else .proceed rc.1

/-- C7 (spec-modelled): the three git safety checks are each always
evaluated and independent; no upstream counts as safe; any unsafe finding
blocks the run unless the override flag is set, in which case the run
proceeds but every finding is still surfaced. -/
theorem c7_git_safety_gate (repo : RepoState) (force : Bool) :
    ((run_git_safety_checks repo).1.map GitSafetyCheck.check_type
      = [pstr "uncommitted_changes", pstr "unpushed_commits",
         pstr "detached_head"])
    ∧ ((run_git_safety_checks repo).1.map GitSafetyCheck.is_unsafe
      = [repo.has_uncommitted_changes,
         repo.upstream_configured && decide (0 < repo.commits_ahead),
         repo.head_detached])
    ∧ (repo.upstream_configured = false →
        GitSafetyCheck.is_unsafe (check_git_unpushed_commits repo) = false)
    ∧ ((run_git_safety_checks repo).2 = true → force = false →
        cmd_run_gate repo force = .blocked (run_git_safety_checks repo).1)
    ∧ (force = true →
        cmd_run_gate repo force = .proceed (run_git_safety_checks repo).1)
    ∧ ((run_git_safety_checks repo).2 = false →
        cmd_run_gate repo force = .proceed (run_git_safety_checks repo).1) := by
  refine ⟨rfl, rfl, ?_, ?_, ?_, ?_⟩
  · intro h
    rw [check_git_unpushed_commits]
    simp [h]
  · intro hu hf
    rw [cmd_run_gate]
    rw [if_pos (by rw [hu, hf]; simp)]
  · intro hf
    rw [cmd_run_gate]
    rw [if_neg (by rw [hf]; simp)]
  · intro hu
    rw [cmd_run_gate]
    rw [if_neg (by rw [hu]; simp)]

/-- Witness for C7: a repository with uncommitted changes and no upstream is
blocked without the override flag and proceeds with it, surfacing the same
three findings. -/
theorem c7_witness :
    (run_git_safety_checks
      { has_uncommitted_changes := true, upstream_configured := false,
        commits_ahead := 0, head_detached := false }).2 = true
    ∧ cmd_run_gate
        { has_uncommitted_changes := true, upstream_configured := false,
          commits_ahead := 0, head_detached := false } false =
      .blocked (run_git_safety_checks
        { has_uncommitted_changes := true, upstream_configured := false,
          commits_ahead := 0, head_detached := false }).1
    ∧ cmd_run_gate
        { has_uncommitted_changes := true, upstream_configured := false,
          commits_ahead := 0, head_detached := false } true =
      .proceed (run_git_safety_checks
        { has_uncommitted_changes := true, upstream_configured := false,
          commits_ahead := 0, head_detached := false }).1
    ∧ GitSafetyCheck.is_unsafe (check_git_unpushed_commits
        { has_uncommitted_changes := true, upstream_configured := false,
          commits_ahead := 0, head_detached := false }) = false :=
  ⟨by decide,
    (c7_git_safety_gate _ false).2.2.2.1 (by decide) rfl,
    (c7_git_safety_gate _ true).2.2.2.2.1 rfl,
    (c7_git_safety_gate
      { has_uncommitted_changes := true, upstream_configured := false,
        commits_ahead := 0, head_detached := false } false).2.2.1 rfl⟩
